import Mathlib

/-!
BtechDevCases wallet service: a shallow embedding of the transfer core, the
session gate and registration.

The development embeds `internal/models`, `internal/repository`,
`internal/service`, the transfer handler of `internal/api/handlers` and
`internal/api/middleware` as pure Lean functions over an explicit database
state (and an explicit session store) and proves properties of
`walletService.Transfer`, `walletService.GetWallet`, `authService.Register`
and `AuthMiddleware.RequireAuth`.

Modelling conventions.

* The database is a value `gorm.DB` holding the three tables as lists of rows.
  A call that mutates the database returns the new state.
* Monetary amounts (`float64` in the source) are exact rationals.  The section on
  `float64` amounts repeats the transfer engine over `fp.float64`, a number or NaN;
  `float64_Transfer` shows that the two embeddings agree on numbers.  Rounding and
  infinities are not represented.
* Identifiers (`uint`) are natural numbers; timestamps are natural numbers.
* Go `error` values are terms of `GoError`; a `nil` error is `none`.
  `fmt.Errorf("msg: %w", err)` is the constructor `GoError.Errorf`.
* The storage engine is deterministic: a query fails only with
  `ErrRecordNotFound`, an insert fails only on a violated unique index or
  primary key.  Connectivity failures are outside the model.
* Soft deletion is never exercised by the services, so tables hold live rows
  only; declared column widths are not enforced (as in the engine used by the
  repository's test-suite).
* Only the timestamps that a query of the repository reads (`created_at` of a
  ledger row) are kept.
* A write issued on a repository's own handle takes effect at once; a write
  issued on the unit of work `tx` takes effect when `db.Transaction` commits.
* The session store is the list of its live records at the instant of a
  request; a record carries the time-to-live passed to `Set`.
* Token validation (`pkg/jwt`) and password hashing (`bcrypt`) are parameters.
-/

/-- Go error values produced or consumed by the service layer. -/
inductive GoError where
  | ErrRecordNotFound
  | ErrDuplicatedKey
  | ErrInsufficientBalance
  | ErrRecipientNotFound
  | ErrInvalidAmount
  | ErrSelfTransfer
  | ErrEmailExists
  | ErrInvalidCredentials
  | ErrPasswordMismatch
  | ErrWeakPassword
  | Errorf (msg : String) (cause : GoError)
  deriving DecidableEq, Repr

deriving instance DecidableEq for Except

namespace errors

/-- Go `errors.Is`: walks the `%w` chain of `err` looking for `target`. -/
def Is : GoError → GoError → Bool
  | .Errorf msg cause, target => (GoError.Errorf msg cause == target) || Is cause target
  | err, target => err == target

end errors

namespace models

/-- The `TransactionType` constants `"debit"` and `"credit"`. -/
inductive TransactionType where
  | TransactionTypeDebit
  | TransactionTypeCredit
  deriving DecidableEq, Repr

/-- Row of table `users` (`models.User`). -/
structure User where
  ID : Nat
  Email : String
  Password : String
  deriving DecidableEq, Repr

/-- Row of table `wallets` (`models.Wallet`). -/
structure Wallet where
  ID : Nat
  UserID : Nat
  Balance : ℚ
  deriving DecidableEq, Repr

/-- Row of table `transactions` (`models.Transaction`); `Type_` is the Go field `Type`. -/
structure Transaction where
  ID : Nat
  WalletID : Nat
  Amount : ℚ
  Type_ : TransactionType
  RelatedUserID : Option Nat
  Notes : String
  IdempotencyKey : String
  CreatedAt : Nat
  deriving DecidableEq, Repr

end models

namespace gorm

/-- The database state behind a `*gorm.DB` handle: the three tables. -/
structure DB where
  users : List models.User
  wallets : List models.Wallet
  transactions : List models.Transaction
  deriving DecidableEq, Repr

/-- Row with the least primary key among `rows` (the `ORDER BY id LIMIT 1` of `First`). -/
def leastBy {α : Type} (pk : α → Nat) : List α → Option α
  | [] => none
  | r :: rs =>
    match leastBy pk rs with
    | none => some r
    | some b => if pk r ≤ pk b then some r else some b

/-- The query `db.Where(cond).First(&row)`: the matching row with the least primary key,
or `ErrRecordNotFound`. -/
def First {α : Type} (pk : α → Nat) (rows : List α) (cond : α → Bool) : Except GoError α :=
  match leastBy pk (rows.filter cond) with
  | some r => .ok r
  | none => .error .ErrRecordNotFound

/-- Next value of an auto-increment primary key. -/
def nextID {α : Type} (pk : α → Nat) (rows : List α) : Nat :=
  (rows.map pk).foldr max 0 + 1

/-- The unit of work `db.Transaction(fc)`: commit the state `fc` returns, or roll back to
`db` when `fc` returns an error. -/
def DB.Transaction (db : DB) (fc : DB → Except GoError DB) : Option GoError × DB :=
  match fc db with
  | .ok tx => (none, tx)
  | .error err => (some err, db)

/-- Schema constraints: primary keys and the three unique indexes
(`users.email`, `wallets.user_id`, `transactions.idempotency_key`). -/
def DB.Constraints (db : DB) : Prop :=
  (db.users.map models.User.ID).Nodup ∧ (db.users.map models.User.Email).Nodup ∧
  (db.wallets.map models.Wallet.ID).Nodup ∧ (db.wallets.map models.Wallet.UserID).Nodup ∧
  (db.transactions.map models.Transaction.ID).Nodup ∧
  (db.transactions.map models.Transaction.IdempotencyKey).Nodup

instance (db : DB) : Decidable db.Constraints := by
  unfold DB.Constraints; infer_instance

end gorm

namespace repository

/-- Modelled from the spec: `user_repository.go` is not part of the sources; the sender is
resolved by its identity (primary key), failing with `ErrRecordNotFound` when absent. -/
def userRepository.FindByID (db : gorm.DB) (id : Nat) : Except GoError models.User :=
  gorm.First models.User.ID db.users (fun u => u.ID == id)

/-- Modelled from the spec: `user_repository.go` is not part of the sources; the recipient
is resolved by its email, failing with `ErrRecordNotFound` when absent. -/
def userRepository.FindByEmail (db : gorm.DB) (email : String) : Except GoError models.User :=
  gorm.First models.User.ID db.users (fun u => u.Email == email)

/-- The query `walletRepository.FindByUserID`. -/
def walletRepository.FindByUserID (db : gorm.DB) (userID : Nat) : Except GoError models.Wallet :=
  gorm.First models.Wallet.ID db.wallets (fun w => w.UserID == userID)

/-- Effect of `UPDATE wallets SET balance = newBalance WHERE id = walletID` on one row. -/
def walletRepository.UpdateBalance.set (walletID : Nat) (newBalance : ℚ) (w : models.Wallet) :
    models.Wallet :=
  if w.ID = walletID then { w with Balance := newBalance } else w

/-- The update `walletRepository.UpdateBalance`: sets `balance` on the rows with `id = walletID`. -/
def walletRepository.UpdateBalance (tx : gorm.DB) (walletID : Nat) (newBalance : ℚ) :
    Except GoError gorm.DB :=
  .ok { tx with wallets := tx.wallets.map (walletRepository.UpdateBalance.set walletID newBalance) }

/-- The insert `transactionRepository.Create` executed at time `now`: a zero `ID` is replaced
by the next auto-increment value and a zero `CreatedAt` by `now`; the insert is rejected when
the primary key or the unique index on `idempotency_key` would be violated. -/
def transactionRepository.Create (tx : gorm.DB) (transaction : models.Transaction) (now : Nat) :
    Except GoError gorm.DB :=
  let row : models.Transaction :=
    { transaction with
      ID := if transaction.ID = 0 then gorm.nextID models.Transaction.ID tx.transactions
            else transaction.ID
      CreatedAt := if transaction.CreatedAt = 0 then now else transaction.CreatedAt }
  if tx.transactions.any (fun t => t.ID == row.ID || t.IdempotencyKey == row.IdempotencyKey) then
    .error .ErrDuplicatedKey
  else
    .ok { tx with transactions := tx.transactions ++ [row] }

/-- The query `transactionRepository.FindByIdempotencyKey`. -/
def transactionRepository.FindByIdempotencyKey (db : gorm.DB) (idempotencyKey : String) :
    Except GoError models.Transaction :=
  gorm.First models.Transaction.ID db.transactions (fun t => t.IdempotencyKey == idempotencyKey)

end repository

namespace service

open repository

/-- The closure passed to `s.db.Transaction` in `Transfer`: wallet reads go through the
repository handle `db`, writes through the unit of work `tx`; `tDebit` and `tCredit` are the
clock readings at the two ledger inserts. -/
def walletService.Transfer.func1 (db : gorm.DB) (sender recipient : models.User) (amount : ℚ)
    (notes : String) (idempotencyKey : String) (tDebit tCredit : Nat) (tx : gorm.DB) :
    Except GoError gorm.DB :=
  match walletRepository.FindByUserID db sender.ID with
  | .error err => .error (.Errorf "error finding sender wallet" err)
  | .ok senderWallet =>
  match walletRepository.FindByUserID db recipient.ID with
  | .error err => .error (.Errorf "error finding recipient wallet" err)
  | .ok recipientWallet =>
  if senderWallet.Balance < amount then .error .ErrInsufficientBalance else
  let newSenderBalance := senderWallet.Balance - amount
  let newRecipientBalance := recipientWallet.Balance + amount
  match walletRepository.UpdateBalance tx senderWallet.ID newSenderBalance with
  | .error err => .error (.Errorf "error updating sender balance" err)
  | .ok tx =>
  match walletRepository.UpdateBalance tx recipientWallet.ID newRecipientBalance with
  | .error err => .error (.Errorf "error updating recipient balance" err)
  | .ok tx =>
  let debitTx : models.Transaction :=
    { ID := 0
      WalletID := senderWallet.ID
      Amount := amount
      Type_ := .TransactionTypeDebit
      RelatedUserID := some recipient.ID
      Notes := notes
      IdempotencyKey := idempotencyKey
      CreatedAt := 0 }
  match transactionRepository.Create tx debitTx tDebit with
  | .error err => .error (.Errorf "error creating debit transaction" err)
  | .ok tx =>
  let creditTx : models.Transaction :=
    { ID := 0
      WalletID := recipientWallet.ID
      Amount := amount
      Type_ := .TransactionTypeCredit
      RelatedUserID := some sender.ID
      Notes := notes
      IdempotencyKey := idempotencyKey ++ "-credit"
      CreatedAt := 0 }
  match transactionRepository.Create tx creditTx tCredit with
  | .error err => .error (.Errorf "error creating credit transaction" err)
  | .ok tx => .ok tx

/-- The method `walletService.Transfer`: returns the Go error (`none` for `nil`) and the
database state after the call. -/
def walletService.Transfer (db : gorm.DB) (senderID : Nat) (recipientEmail : String)
    (amount : ℚ) (notes : String) (idempotencyKey : String) (tDebit tCredit : Nat) :
    Option GoError × gorm.DB :=
  let duplicate : Option (Option GoError) :=
    if idempotencyKey ≠ "" then
      match transactionRepository.FindByIdempotencyKey db idempotencyKey with
      | .ok _ => some none
      | .error err =>
        if !errors.Is err .ErrRecordNotFound then
          some (some (.Errorf "error checking idempotency" err))
        else none
    else none
  match duplicate with
  | some result => (result, db)
  | none =>
  if amount ≤ 0 then (some .ErrInvalidAmount, db) else
  match userRepository.FindByID db senderID with
  | .error err => (some (.Errorf "error finding sender" err), db)
  | .ok sender =>
  match userRepository.FindByEmail db recipientEmail with
  | .error err =>
    if errors.Is err .ErrRecordNotFound then (some .ErrRecipientNotFound, db)
    else (some (.Errorf "error finding recipient" err), db)
  | .ok recipient =>
  if sender.ID = recipient.ID then (some .ErrSelfTransfer, db) else
  db.Transaction
    (walletService.Transfer.func1 db sender recipient amount notes idempotencyKey tDebit tCredit)

/-- Ledger row inserted for the sender by a committed transfer. -/
def walletService.Transfer.debitRow (db : gorm.DB) (recipient : models.User) (sw : models.Wallet)
    (amount : ℚ) (notes : String) (idempotencyKey : String) (tDebit : Nat) : models.Transaction :=
  { ID := gorm.nextID models.Transaction.ID db.transactions
    WalletID := sw.ID
    Amount := amount
    Type_ := .TransactionTypeDebit
    RelatedUserID := some recipient.ID
    Notes := notes
    IdempotencyKey := idempotencyKey
    CreatedAt := tDebit }

/-- Ledger row inserted for the recipient by a committed transfer. -/
def walletService.Transfer.creditRow (db : gorm.DB) (sender recipient : models.User)
    (sw rw : models.Wallet) (amount : ℚ) (notes : String) (idempotencyKey : String)
    (tDebit tCredit : Nat) : models.Transaction :=
  { ID := gorm.nextID models.Transaction.ID
      (db.transactions ++
        [walletService.Transfer.debitRow db recipient sw amount notes idempotencyKey tDebit])
    WalletID := rw.ID
    Amount := amount
    Type_ := .TransactionTypeCredit
    RelatedUserID := some sender.ID
    Notes := notes
    IdempotencyKey := idempotencyKey ++ "-credit"
    CreatedAt := tCredit }

/-- Database state committed by a transfer of `amount` from wallet `sw` to wallet `rw`. -/
def walletService.Transfer.committed (db : gorm.DB) (sender recipient : models.User)
    (sw rw : models.Wallet) (amount : ℚ) (notes : String) (idempotencyKey : String)
    (tDebit tCredit : Nat) : gorm.DB :=
  { users := db.users
    wallets := (db.wallets.map (walletRepository.UpdateBalance.set sw.ID (sw.Balance - amount))).map
      (walletRepository.UpdateBalance.set rw.ID (rw.Balance + amount))
    transactions := db.transactions ++
      [walletService.Transfer.debitRow db recipient sw amount notes idempotencyKey tDebit] ++
      [walletService.Transfer.creditRow db sender recipient sw rw amount notes idempotencyKey
        tDebit tCredit] }

end service

open repository service models

/-- Arguments of one `Transfer` call, with the clock readings of its two inserts. -/
structure TransferCall where
  senderID : Nat
  recipientEmail : String
  amount : ℚ
  notes : String
  idempotencyKey : String
  tDebit : Nat
  tCredit : Nat
  deriving DecidableEq, Repr

/-- Database state after executing one `Transfer` call. -/
def TransferCall.run (db : gorm.DB) (c : TransferCall) : gorm.DB :=
  (walletService.Transfer db c.senderID c.recipientEmail c.amount c.notes c.idempotencyKey
    c.tDebit c.tCredit).2

/-- Database state after the first `n` calls of a sequence of `Transfer` calls. -/
def stateAfter (db : gorm.DB) (calls : List TransferCall) (n : Nat) : gorm.DB :=
  (calls.take n).foldl TransferCall.run db

/-- Two users with a wallet of 1000 each and an empty ledger (the fixture of the
repository's transfer tests). -/
def db0 : gorm.DB :=
  { users := [⟨1, "sender@example.com", "hashedpassword"⟩,
              ⟨2, "recipient@example.com", "hashedpassword"⟩]
    wallets := [⟨1, 1, 1000⟩, ⟨2, 2, 1000⟩]
    transactions := [] }

/-- Three calls: a transfer with key `k1`, then the same transfer twice with an empty key. -/
def retryCalls : List TransferCall :=
  [⟨1, "recipient@example.com", 200, "first", "k1", 5, 6⟩,
   ⟨1, "recipient@example.com", 50, "second", "", 7, 8⟩,
   ⟨1, "recipient@example.com", 50, "second", "", 9, 10⟩]

/-- The fixture after user 1 has sent 200 to user 2 with key `a`. -/
def dbAfterA : gorm.DB :=
  (walletService.Transfer db0 1 "recipient@example.com" 200 "first" "a" 5 6).2

/-- The fixture after user 1 has sent 200 to user 2 with key `a-credit`. -/
def dbAfterACredit : gorm.DB :=
  (walletService.Transfer db0 1 "recipient@example.com" 200 "first" "a-credit" 5 6).2

namespace http

/-- The `net/http` status constants used by the handlers. -/
def StatusOK : Nat := 200

/-- Status `201 Created`. -/
def StatusCreated : Nat := 201

/-- Status `400 Bad Request`. -/
def StatusBadRequest : Nat := 400

/-- Status `401 Unauthorized`. -/
def StatusUnauthorized : Nat := 401

/-- Status `404 Not Found`. -/
def StatusNotFound : Nat := 404

/-- Status `409 Conflict`. -/
def StatusConflict : Nat := 409

/-- Status `500 Internal Server Error`. -/
def StatusInternalServerError : Nat := 500

end http

namespace handlers

/-- The body of `POST /wallet/transfer` after JSON binding (`handlers.TransferRequest`). -/
structure TransferRequest where
  Recipient : String
  Amount : ℚ
  Notes : String
  deriving DecidableEq, Repr

/-- The handler `WalletHandler.Transfer`: returns the HTTP status written to the response and
the database state after the request.  `userID` is the `user_id` entry of the request
context (`none` when absent), `req` the outcome of `ShouldBindJSON` (`none` when binding or
validation fails), `idempotencyKeyHeader` the `Idempotency-Key` header (empty when absent)
and `uuid` the value `uuid.New().String()` would produce. -/
def WalletHandler.Transfer (db : gorm.DB) (userID : Option Nat) (req : Option TransferRequest)
    (idempotencyKeyHeader : String) (uuid : String) (tDebit tCredit : Nat) : Nat × gorm.DB :=
  match userID with
  | none => (http.StatusUnauthorized, db)
  | some userID =>
  match req with
  | none => (http.StatusBadRequest, db)
  | some req =>
  let idempotencyKey := if idempotencyKeyHeader = "" then uuid else idempotencyKeyHeader
  match walletService.Transfer db userID req.Recipient req.Amount req.Notes idempotencyKey
          tDebit tCredit with
  | (some err, db') =>
    if errors.Is err .ErrInsufficientBalance then (http.StatusBadRequest, db')
    else if errors.Is err .ErrRecipientNotFound then (http.StatusNotFound, db')
    else if errors.Is err .ErrInvalidAmount then (http.StatusBadRequest, db')
    else if errors.Is err .ErrSelfTransfer then (http.StatusBadRequest, db')
    else (http.StatusInternalServerError, db')
  | (none, db') => (http.StatusOK, db')

end handlers

namespace strings

/-- Splits a list of characters at every occurrence of `sep` (always at least one field). -/
def splitChars (sep : Char) : List Char → List (List Char)
  | [] => [[]]
  | c :: cs =>
    if c = sep then [] :: splitChars sep cs
    else
      match splitChars sep cs with
      | [] => [[c]]
      | p :: ps => (c :: p) :: ps

/-- Go `strings.Split(s, sep)` for a separator of one character. -/
def Split (s : String) (sep : Char) : List String :=
  (splitChars sep s.data).map String.mk

end strings

namespace customjwt

/-- Modelled from the spec: `pkg/jwt/jwt.go` is not part of the sources; a valid bearer
credential yields the caller identity, read by the middleware as `claims.UserID` and
`claims.Email`. -/
structure Claims where
  UserID : Nat
  Email : String
  deriving DecidableEq, Repr

end customjwt

namespace redis

/-- Errors of the session store client: `redis.Nil` (key absent) or any other failure. -/
inductive Error where
  | Nil
  | Other (msg : String)
  deriving DecidableEq, Repr

/-- One record of the session store as seen at the instant of a request: its key, value and
the time-to-live counted from that instant (`time.Duration`). -/
structure Entry where
  key : String
  value : String
  ttl : Int
  deriving DecidableEq, Repr

/-- The session store behind a `*redis.Client`: its live records. -/
abbrev Client := List Entry

/-- The command `redisClient.Get(ctx, key).Result()`. -/
def Client.Get (c : Client) (key : String) : Except Error String :=
  match c.find? (fun e => e.key == key) with
  | some e => .ok e.value
  | none => .error .Nil

/-- The command `redisClient.Set(ctx, key, value, expiration).Err()`: the record under `key`
is replaced by one holding `value` with time-to-live `expiration`. -/
def Client.Set (c : Client) (key value : String) (expiration : Int) : Except Error Client :=
  .ok (⟨key, value, expiration⟩ :: c.filter (fun e => e.key != key))

end redis

namespace middleware

/-- What the middleware does with a request: pass it on with the caller identity in the
request context (`c.Set("user_id", ..)`, `c.Set("user_email", ..)`, `c.Next()`), or answer
with a status and an error message and abort. -/
inductive Result where
  | next (user_id : Nat) (user_email : String)
  | abort (status : Nat) (error : String)
  deriving DecidableEq, Repr

/-- The handler returned by `AuthMiddleware.RequireAuth`, applied to a request with the given
`Authorization` header (empty when absent).  `ValidateToken` is `m.jwtManager.ValidateToken`;
the session store is passed in and returned. -/
def AuthMiddleware.RequireAuth (ValidateToken : String → Except GoError customjwt.Claims)
    (redisClient : redis.Client) (sessionTimeout : Int) (authHeader : String) :
    Result × redis.Client :=
  if authHeader = "" then
    (.abort http.StatusUnauthorized "authorization header required", redisClient)
  else
  let parts := strings.Split authHeader ' '
  if parts.length ≠ 2 ∨ parts.getD 0 "" ≠ "Bearer" then
    (.abort http.StatusUnauthorized "invalid authorization header format", redisClient)
  else
  let token := parts.getD 1 ""
  match ValidateToken token with
  | .error _ => (.abort http.StatusUnauthorized "invalid or expired token", redisClient)
  | .ok claims =>
  let sessionKey := "session:" ++ token
  match redisClient.Get sessionKey with
  | .error .Nil =>
    (.abort http.StatusUnauthorized "session expired due to inactivity", redisClient)
  | .error _ => (.abort http.StatusInternalServerError "error checking session", redisClient)
  | .ok userID =>
  match redisClient.Set sessionKey userID sessionTimeout with
  | .error _ => (.abort http.StatusInternalServerError "error updating session", redisClient)
  | .ok redisClient => (.next claims.UserID claims.Email, redisClient)

end middleware

namespace repository

/-- Modelled from the spec: `user_repository.go` is not part of the sources; `Create` inserts
a user record through the repository's own handle, assigning a fresh identity to a zero `ID`
and rejecting a duplicate identity or email (emails are globally unique).  Returns the new
state and the record as stored. -/
def userRepository.Create (db : gorm.DB) (user : models.User) :
    Except GoError (gorm.DB × models.User) :=
  let row : models.User :=
    { user with ID := if user.ID = 0 then gorm.nextID models.User.ID db.users else user.ID }
  if db.users.any (fun u => u.ID == row.ID || u.Email == row.Email) then
    .error .ErrDuplicatedKey
  else
    .ok ({ db with users := db.users ++ [row] }, row)

/-- The insert `walletRepository.Create`, issued on the repository's own handle `r.db`: a
zero `ID` is replaced by the next auto-increment value; the insert is rejected when the
primary key or the unique index on `user_id` would be violated. -/
def walletRepository.Create (db : gorm.DB) (wallet : models.Wallet) : Except GoError gorm.DB :=
  let row : models.Wallet :=
    { wallet with
      ID := if wallet.ID = 0 then gorm.nextID models.Wallet.ID db.wallets else wallet.ID }
  if db.wallets.any (fun w => w.ID == row.ID || w.UserID == row.UserID) then
    .error .ErrDuplicatedKey
  else
    .ok { db with wallets := db.wallets ++ [row] }

/-- The order `created_at DESC` of `FindByWalletID`. -/
def transactionRepository.newestFirst (a b : models.Transaction) : Prop :=
  b.CreatedAt ≤ a.CreatedAt

instance : DecidableRel transactionRepository.newestFirst := by
  intro a b; unfold transactionRepository.newestFirst; infer_instance

instance : IsTotal models.Transaction transactionRepository.newestFirst :=
  ⟨fun a b => Nat.le_total b.CreatedAt a.CreatedAt⟩

instance : IsTrans models.Transaction transactionRepository.newestFirst :=
  ⟨fun _ _ _ hab hbc => Nat.le_trans hbc hab⟩

/-- The query `transactionRepository.FindByWalletID`: the rows of the wallet ordered by
`created_at DESC`, cut to `limit` rows when `limit > 0`. -/
def transactionRepository.FindByWalletID (db : gorm.DB) (walletID : Nat) (limit : Int) :
    Except GoError (List models.Transaction) :=
  let query := (db.transactions.filter (fun t => t.WalletID == walletID)).insertionSort
    transactionRepository.newestFirst
  let query := if limit > 0 then query.take limit.toNat else query
  .ok query

end repository

namespace service

open repository

/-- The method `walletService.GetWallet`: the wallet of the user and its recent ledger rows,
or an error. -/
def walletService.GetWallet (db : gorm.DB) (userID : Nat) :
    Except GoError (models.Wallet × List models.Transaction) :=
  match walletRepository.FindByUserID db userID with
  | .error err => .error (.Errorf "error finding wallet" err)
  | .ok wallet =>
  match transactionRepository.FindByWalletID db wallet.ID 50 with
  | .error err =>
    if !errors.Is err .ErrRecordNotFound then .error (.Errorf "error finding transactions" err)
    else .ok (wallet, [])
  | .ok transactions => .ok (wallet, transactions)

/-- The closure passed to `s.db.Transaction` in `Register`.  It does not use the unit of work
`tx`: both inserts are issued on the repositories' own handle, so each takes effect on the
database `db` behind that handle as soon as it is executed.  Returns the closure's error, the
captured `user` variable and the state behind the repository handle. -/
def authService.Register.func1 (db : gorm.DB) (email hashedPassword : String) (_tx : gorm.DB) :
    Option GoError × models.User × gorm.DB :=
  let user : models.User := { ID := 0, Email := email, Password := hashedPassword }
  match userRepository.Create db user with
  | .error err => (some (.Errorf "error creating user" err), user, db)
  | .ok (db, user) =>
  let wallet : models.Wallet := { ID := 0, UserID := user.ID, Balance := 1000 }
  match walletRepository.Create db wallet with
  | .error err => (some (.Errorf "error creating wallet" err), user, db)
  | .ok db => (none, user, db)

/-- The method `authService.Register`: returns the created user or the error, and the
database state after the call.  `GenerateFromPassword` is the password hashing of the
`bcrypt` package; `len(password)` is the length of the password in bytes.  The unit of work
opened by `s.db.Transaction` receives no write, so committing it or rolling it back leaves
the database as the closure's inserts made it. -/
def authService.Register (GenerateFromPassword : String → Except GoError String) (db : gorm.DB)
    (email password confirmPassword : String) : Except GoError models.User × gorm.DB :=
  if password ≠ confirmPassword then (.error .ErrPasswordMismatch, db) else
  if password.utf8ByteSize < 8 then (.error .ErrWeakPassword, db) else
  let existing : Option GoError :=
    match userRepository.FindByEmail db email with
    | .ok _ => some .ErrEmailExists
    | .error err =>
      if !errors.Is err .ErrRecordNotFound then some (.Errorf "error checking email" err)
      else none
  match existing with
  | some err => (.error err, db)
  | none =>
  match GenerateFromPassword password with
  | .error err => (.error (.Errorf "error hashing password" err), db)
  | .ok hashedPassword =>
  match authService.Register.func1 db email hashedPassword db with
  | (some err, _, db) => (.error err, db)
  | (none, user, db) => (.ok user, db)

/-- The reads that open the unit of work of `Transfer`: both wallets are fetched through the
repository handle by a plain query. -/
def walletService.Transfer.func1.reads (db : gorm.DB) (sender recipient : models.User) :
    Except GoError (models.Wallet × models.Wallet) :=
  match walletRepository.FindByUserID db sender.ID with
  | .error err => .error (.Errorf "error finding sender wallet" err)
  | .ok senderWallet =>
  match walletRepository.FindByUserID db recipient.ID with
  | .error err => .error (.Errorf "error finding recipient wallet" err)
  | .ok recipientWallet => .ok (senderWallet, recipientWallet)

/-- The rest of the unit of work of `Transfer` once both wallets have been read: the balance
check, the two balance updates with the values computed from the wallets as read, and the
two ledger inserts, all on the unit of work `tx`. -/
def walletService.Transfer.func1.writes (senderWallet recipientWallet : models.Wallet)
    (sender recipient : models.User) (amount : ℚ) (notes : String) (idempotencyKey : String)
    (tDebit tCredit : Nat) (tx : gorm.DB) : Except GoError gorm.DB :=
  if senderWallet.Balance < amount then .error .ErrInsufficientBalance else
  let newSenderBalance := senderWallet.Balance - amount
  let newRecipientBalance := recipientWallet.Balance + amount
  match walletRepository.UpdateBalance tx senderWallet.ID newSenderBalance with
  | .error err => .error (.Errorf "error updating sender balance" err)
  | .ok tx =>
  match walletRepository.UpdateBalance tx recipientWallet.ID newRecipientBalance with
  | .error err => .error (.Errorf "error updating recipient balance" err)
  | .ok tx =>
  let debitTx : models.Transaction :=
    { ID := 0
      WalletID := senderWallet.ID
      Amount := amount
      Type_ := .TransactionTypeDebit
      RelatedUserID := some recipient.ID
      Notes := notes
      IdempotencyKey := idempotencyKey
      CreatedAt := 0 }
  match transactionRepository.Create tx debitTx tDebit with
  | .error err => .error (.Errorf "error creating debit transaction" err)
  | .ok tx =>
  let creditTx : models.Transaction :=
    { ID := 0
      WalletID := recipientWallet.ID
      Amount := amount
      Type_ := .TransactionTypeCredit
      RelatedUserID := some sender.ID
      Notes := notes
      IdempotencyKey := idempotencyKey ++ "-credit"
      CreatedAt := 0 }
  match transactionRepository.Create tx creditTx tCredit with
  | .error err => .error (.Errorf "error creating credit transaction" err)
  | .ok tx => .ok tx

/-- Two units of work of `Transfer` that overlap in time: both read their wallets before
either writes (the reads take no lock), then the first writes and commits, then the second
writes and commits on the state the first left. -/
def walletService.Transfer.overlapped (db : gorm.DB)
    (sender1 recipient1 : models.User) (amount1 : ℚ) (notes1 key1 : String) (tDebit1 tCredit1 : Nat)
    (sender2 recipient2 : models.User) (amount2 : ℚ) (notes2 key2 : String) (tDebit2 tCredit2 : Nat) :
    Option GoError × Option GoError × gorm.DB :=
  match walletService.Transfer.func1.reads db sender1 recipient1,
        walletService.Transfer.func1.reads db sender2 recipient2 with
  | .ok (sw1, rw1), .ok (sw2, rw2) =>
    let first := db.Transaction
      (walletService.Transfer.func1.writes sw1 rw1 sender1 recipient1 amount1 notes1 key1
        tDebit1 tCredit1)
    let second := first.2.Transaction
      (walletService.Transfer.func1.writes sw2 rw2 sender2 recipient2 amount2 notes2 key2
        tDebit2 tCredit2)
    (first.1, second.1, second.2)
  | .error err, _ => (some err, none, db)
  | _, .error err => (none, some err, db)

end service

/-- A password hashing that never fails. -/
def hashFixture (password : String) : Except GoError String :=
  .ok ("hash:" ++ password)

/-- An empty database. -/
def dbEmpty : gorm.DB :=
  { users := [], wallets := [], transactions := [] }

/-- The empty database after `test@example.com` has registered. -/
def dbRegistered : gorm.DB :=
  (authService.Register hashFixture dbEmpty "test@example.com" "password123" "password123").2

/-- A database without users that holds a wallet row with `user_id = 1`. -/
def dbOrphanWallet : gorm.DB :=
  { users := [], wallets := [⟨1, 1, 500⟩], transactions := [] }

/-- A credential check that accepts exactly the token `good-token`, for user 7. -/
def validateGood (token : String) : Except GoError customjwt.Claims :=
  if token = "good-token" then .ok ⟨7, "user@example.com"⟩ else .error .ErrInvalidCredentials

/-- A session store holding the session of `good-token` with 30 units left. -/
def sessions0 : redis.Client :=
  [⟨"session:good-token", "7", 30⟩, ⟨"session:other", "8", 100⟩]

/-! ## The transfer engine over `float64` amounts

The definitions of this section repeat the embedding of `Transfer` and of the repository
calls it makes with amounts of type `fp.float64`, which has the value NaN that the exact
rationals lack.  As in the exact embedding, `UpdateBalance` and `Create` store the value
they are given, NaN included: the database of `config.go` is PostgreSQL, whose numeric
columns have a NaN value. -/

namespace fp

/-- A Go `float64` as far as `Transfer` tells values apart: a number or NaN.  Numbers are
kept exact; NaN is unordered (every comparison with it is false) and absorbing (every sum or
difference with it is NaN), as in IEEE 754. -/
inductive float64 where
  | num (q : ℚ)
  | NaN
  deriving DecidableEq, Repr

namespace float64

/-- Go `a <= b` on `float64`. -/
def le : float64 → float64 → Bool
  | .num a, .num b => decide (a ≤ b)
  | _, _ => false

/-- Go `a < b` on `float64`. -/
def lt : float64 → float64 → Bool
  | .num a, .num b => decide (a < b)
  | _, _ => false

/-- Go `a + b` on `float64`. -/
def add : float64 → float64 → float64
  | .num a, .num b => .num (a + b)
  | _, _ => .NaN

/-- Go `a - b` on `float64`. -/
def sub : float64 → float64 → float64
  | .num a, .num b => .num (a - b)
  | _, _ => .NaN

end float64

namespace models

/-- Row of table `wallets` (`models.Wallet`) with a `float64` balance. -/
structure Wallet where
  ID : Nat
  UserID : Nat
  Balance : float64
  deriving DecidableEq, Repr

/-- Row of table `transactions` (`models.Transaction`) with a `float64` amount; `Type_` is the
Go field `Type`. -/
structure Transaction where
  ID : Nat
  WalletID : Nat
  Amount : float64
  Type_ : models.TransactionType
  RelatedUserID : Option Nat
  Notes : String
  IdempotencyKey : String
  CreatedAt : Nat
  deriving DecidableEq, Repr

end models

namespace gorm

/-- The database state behind a `*gorm.DB` handle: the three tables. -/
structure DB where
  users : List models.User
  wallets : List models.Wallet
  transactions : List models.Transaction
  deriving DecidableEq, Repr

/-- The unit of work `db.Transaction(fc)`: commit the state `fc` returns, or roll back to
`db` when `fc` returns an error. -/
def DB.Transaction (db : DB) (fc : DB → Except GoError DB) : Option GoError × DB :=
  match fc db with
  | .ok tx => (none, tx)
  | .error err => (some err, db)

end gorm

namespace repository

/-- Modelled from the spec: `user_repository.go` is not part of the sources; the sender is
resolved by its identity (primary key), failing with `ErrRecordNotFound` when absent. -/
def userRepository.FindByID (db : gorm.DB) (id : Nat) : Except GoError models.User :=
  gorm.First models.User.ID db.users (fun u => u.ID == id)

/-- Modelled from the spec: `user_repository.go` is not part of the sources; the recipient
is resolved by its email, failing with `ErrRecordNotFound` when absent. -/
def userRepository.FindByEmail (db : gorm.DB) (email : String) : Except GoError models.User :=
  gorm.First models.User.ID db.users (fun u => u.Email == email)

/-- The query `walletRepository.FindByUserID`. -/
def walletRepository.FindByUserID (db : gorm.DB) (userID : Nat) : Except GoError models.Wallet :=
  gorm.First models.Wallet.ID db.wallets (fun w => w.UserID == userID)

/-- Effect of `UPDATE wallets SET balance = newBalance WHERE id = walletID` on one row. -/
def walletRepository.UpdateBalance.set (walletID : Nat) (newBalance : float64)
    (w : models.Wallet) : models.Wallet :=
  if w.ID = walletID then { w with Balance := newBalance } else w

/-- The update `walletRepository.UpdateBalance`: sets `balance` on the rows with `id = walletID`. -/
def walletRepository.UpdateBalance (tx : gorm.DB) (walletID : Nat) (newBalance : float64) :
    Except GoError gorm.DB :=
  .ok { tx with wallets := tx.wallets.map (walletRepository.UpdateBalance.set walletID newBalance) }

/-- The insert `transactionRepository.Create` executed at time `now`: a zero `ID` is replaced
by the next auto-increment value and a zero `CreatedAt` by `now`; the insert is rejected when
the primary key or the unique index on `idempotency_key` would be violated. -/
def transactionRepository.Create (tx : gorm.DB) (transaction : models.Transaction) (now : Nat) :
    Except GoError gorm.DB :=
  let row : models.Transaction :=
    { transaction with
      ID := if transaction.ID = 0 then gorm.nextID models.Transaction.ID tx.transactions
            else transaction.ID
      CreatedAt := if transaction.CreatedAt = 0 then now else transaction.CreatedAt }
  if tx.transactions.any (fun t => t.ID == row.ID || t.IdempotencyKey == row.IdempotencyKey) then
    .error .ErrDuplicatedKey
  else
    .ok { tx with transactions := tx.transactions ++ [row] }

/-- The query `transactionRepository.FindByIdempotencyKey`. -/
def transactionRepository.FindByIdempotencyKey (db : gorm.DB) (idempotencyKey : String) :
    Except GoError models.Transaction :=
  gorm.First models.Transaction.ID db.transactions (fun t => t.IdempotencyKey == idempotencyKey)

end repository

namespace service

/-- The closure passed to `s.db.Transaction` in `Transfer`: wallet reads go through the
repository handle `db`, writes through the unit of work `tx`; `tDebit` and `tCredit` are the
clock readings at the two ledger inserts. -/
def walletService.Transfer.func1 (db : gorm.DB) (sender recipient : models.User)
    (amount : float64) (notes : String) (idempotencyKey : String) (tDebit tCredit : Nat)
    (tx : gorm.DB) : Except GoError gorm.DB :=
  match repository.walletRepository.FindByUserID db sender.ID with
  | .error err => .error (.Errorf "error finding sender wallet" err)
  | .ok senderWallet =>
  match repository.walletRepository.FindByUserID db recipient.ID with
  | .error err => .error (.Errorf "error finding recipient wallet" err)
  | .ok recipientWallet =>
  if float64.lt senderWallet.Balance amount then .error .ErrInsufficientBalance else
  let newSenderBalance := float64.sub senderWallet.Balance amount
  let newRecipientBalance := float64.add recipientWallet.Balance amount
  match repository.walletRepository.UpdateBalance tx senderWallet.ID newSenderBalance with
  | .error err => .error (.Errorf "error updating sender balance" err)
  | .ok tx =>
  match repository.walletRepository.UpdateBalance tx recipientWallet.ID newRecipientBalance with
  | .error err => .error (.Errorf "error updating recipient balance" err)
  | .ok tx =>
  let debitTx : models.Transaction :=
    { ID := 0
      WalletID := senderWallet.ID
      Amount := amount
      Type_ := .TransactionTypeDebit
      RelatedUserID := some recipient.ID
      Notes := notes
      IdempotencyKey := idempotencyKey
      CreatedAt := 0 }
  match repository.transactionRepository.Create tx debitTx tDebit with
  | .error err => .error (.Errorf "error creating debit transaction" err)
  | .ok tx =>
  let creditTx : models.Transaction :=
    { ID := 0
      WalletID := recipientWallet.ID
      Amount := amount
      Type_ := .TransactionTypeCredit
      RelatedUserID := some sender.ID
      Notes := notes
      IdempotencyKey := idempotencyKey ++ "-credit"
      CreatedAt := 0 }
  match repository.transactionRepository.Create tx creditTx tCredit with
  | .error err => .error (.Errorf "error creating credit transaction" err)
  | .ok tx => .ok tx

/-- The method `walletService.Transfer` with its `float64` amount: returns the Go error
(`none` for `nil`) and the database state after the call. -/
def walletService.Transfer (db : gorm.DB) (senderID : Nat) (recipientEmail : String)
    (amount : float64) (notes : String) (idempotencyKey : String) (tDebit tCredit : Nat) :
    Option GoError × gorm.DB :=
  let duplicate : Option (Option GoError) :=
    if idempotencyKey ≠ "" then
      match repository.transactionRepository.FindByIdempotencyKey db idempotencyKey with
      | .ok _ => some none
      | .error err =>
        if !errors.Is err .ErrRecordNotFound then
          some (some (.Errorf "error checking idempotency" err))
        else none
    else none
  match duplicate with
  | some result => (result, db)
  | none =>
  if float64.le amount (.num 0) then (some .ErrInvalidAmount, db) else
  match repository.userRepository.FindByID db senderID with
  | .error err => (some (.Errorf "error finding sender" err), db)
  | .ok sender =>
  match repository.userRepository.FindByEmail db recipientEmail with
  | .error err =>
    if errors.Is err .ErrRecordNotFound then (some .ErrRecipientNotFound, db)
    else (some (.Errorf "error finding recipient" err), db)
  | .ok recipient =>
  if sender.ID = recipient.ID then (some .ErrSelfTransfer, db) else
  db.Transaction
    (walletService.Transfer.func1 db sender recipient amount notes idempotencyKey tDebit tCredit)

end service

/-- Two users with a wallet of 1000 each and an empty ledger (the fixture of the
repository's transfer tests). -/
def db0 : gorm.DB :=
  { users := [⟨1, "sender@example.com", "hashedpassword"⟩,
              ⟨2, "recipient@example.com", "hashedpassword"⟩]
    wallets := [⟨1, 1, .num 1000⟩, ⟨2, 2, .num 1000⟩]
    transactions := [] }

end fp

/-- A wallet row with an exact balance, read as a row with a `float64` balance. -/
def float64Wallet (w : models.Wallet) : fp.models.Wallet :=
  { ID := w.ID, UserID := w.UserID, Balance := .num w.Balance }

/-- A ledger row with an exact amount, read as a row with a `float64` amount. -/
def float64Transaction (t : models.Transaction) : fp.models.Transaction :=
  { ID := t.ID
    WalletID := t.WalletID
    Amount := .num t.Amount
    Type_ := t.Type_
    RelatedUserID := t.RelatedUserID
    Notes := t.Notes
    IdempotencyKey := t.IdempotencyKey
    CreatedAt := t.CreatedAt }

/-- A database with exact amounts, read as a database with `float64` amounts. -/
def float64DB (db : gorm.DB) : fp.gorm.DB :=
  { users := db.users
    wallets := db.wallets.map float64Wallet
    transactions := db.transactions.map float64Transaction }

/-! ## Queries -/

namespace gorm

theorem leastBy_mem {α : Type} (pk : α → Nat) :
    ∀ (l : List α) (r : α), leastBy pk l = some r → r ∈ l := by
  intro l
  induction l with
  | nil => intro r h; simp [leastBy] at h
  | cons a as ih =>
    intro r h
    simp only [leastBy] at h
    cases hb : leastBy pk as with
    | none =>
      rw [hb] at h
      simp only [Option.some.injEq] at h
      subst h
      exact List.mem_cons_self _ _
    | some b =>
      rw [hb] at h
      by_cases hle : pk a ≤ pk b
      · simp only [hle, if_true, Option.some.injEq] at h
        subst h
        exact List.mem_cons_self _ _
      · simp only [hle, if_false, Option.some.injEq] at h
        subst h
        exact List.mem_cons_of_mem _ (ih b hb)

theorem leastBy_eq_none {α : Type} (pk : α → Nat) (l : List α) :
    leastBy pk l = none ↔ l = [] := by
  cases l with
  | nil => simp [leastBy]
  | cons a as =>
    simp only [leastBy, reduceCtorEq, iff_false]
    cases leastBy pk as with
    | none => simp
    | some b => by_cases hle : pk a ≤ pk b <;> simp [hle]

theorem leastBy_map {α : Type} (pk : α → Nat) (f : α → α) (hpk : ∀ r, pk (f r) = pk r) :
    ∀ l : List α, leastBy pk (l.map f) = (leastBy pk l).map f := by
  intro l
  induction l with
  | nil => simp [leastBy]
  | cons a as ih =>
    simp only [List.map_cons, leastBy, ih]
    cases leastBy pk as with
    | none => simp
    | some b => by_cases hle : pk a ≤ pk b <;> simp [hle, hpk]

theorem First_ok {α : Type} {pk : α → Nat} {rows : List α} {cond : α → Bool} {r : α}
    (h : First pk rows cond = .ok r) : r ∈ rows ∧ cond r = true := by
  unfold First at h
  cases hl : leastBy pk (rows.filter cond) with
  | none => rw [hl] at h; simp at h
  | some b =>
    rw [hl] at h
    simp only [Except.ok.injEq] at h
    subst h
    have := leastBy_mem pk _ _ hl
    simpa [List.mem_filter] using this

theorem First_error {α : Type} {pk : α → Nat} {rows : List α} {cond : α → Bool} {e : GoError}
    (h : First pk rows cond = .error e) :
    e = .ErrRecordNotFound ∧ ∀ r ∈ rows, cond r = false := by
  unfold First at h
  cases hl : leastBy pk (rows.filter cond) with
  | some b => rw [hl] at h; simp at h
  | none =>
    rw [hl] at h
    simp only [Except.error.injEq] at h
    refine ⟨h.symm, ?_⟩
    have hnil := (leastBy_eq_none pk _).1 hl
    intro r hr
    by_contra hc
    have : r ∈ rows.filter cond := by
      simp only [List.mem_filter]
      exact ⟨hr, by simpa using hc⟩
    rw [hnil] at this
    exact absurd this (List.not_mem_nil _)

theorem First_none {α : Type} (pk : α → Nat) {rows : List α} {cond : α → Bool}
    (h : ∀ r ∈ rows, cond r = false) : First pk rows cond = .error .ErrRecordNotFound := by
  cases hf : First pk rows cond with
  | error e => rw [(First_error hf).1]
  | ok r =>
    have := First_ok hf
    rw [h r this.1] at this
    simp at this

theorem First_some {α : Type} (pk : α → Nat) {rows : List α} {cond : α → Bool} {r : α}
    (hr : r ∈ rows) (hc : cond r = true) : ∃ b, First pk rows cond = .ok b := by
  cases hf : First pk rows cond with
  | ok b => exact ⟨b, rfl⟩
  | error e =>
    have := (First_error hf).2 r hr
    rw [hc] at this
    simp at this

theorem First_map {α : Type} (pk : α → Nat) (cond : α → Bool) (f : α → α)
    (hpk : ∀ r, pk (f r) = pk r) (hcond : ∀ r, cond (f r) = cond r) (rows : List α) :
    First pk (rows.map f) cond = (First pk rows cond).map f := by
  unfold First
  have hfil : (rows.map f).filter cond = (rows.filter cond).map f := by
    rw [List.filter_map]
    congr 1
    apply List.filter_congr
    intro x _
    simp [hcond]
  rw [hfil, leastBy_map pk f hpk]
  cases leastBy pk (rows.filter cond) <;> rfl

theorem lt_nextID {α : Type} (pk : α → Nat) :
    ∀ (rows : List α) (r : α), r ∈ rows → pk r < nextID pk rows := by
  intro rows
  induction rows with
  | nil => intro r h; simp at h
  | cons a as ih =>
    intro r h
    simp only [nextID, List.map_cons, List.foldr_cons] at ih ⊢
    rcases List.mem_cons.1 h with h | h
    · subst h
      omega
    · have := ih r h
      omega

end gorm

/-! ## The transfer engine -/

namespace service

open repository

theorem append_credit_ne (k : String) : k ≠ k ++ "-credit" := by
  intro h
  have := congrArg String.length h
  rw [String.length_append] at this
  have h7 : "-credit".length = 7 := by decide
  omega

theorem FindByIdempotencyKey_absent {db : gorm.DB} {k : String}
    (h : ∀ t ∈ db.transactions, t.IdempotencyKey ≠ k) :
    transactionRepository.FindByIdempotencyKey db k = .error .ErrRecordNotFound := by
  unfold transactionRepository.FindByIdempotencyKey
  apply gorm.First_none
  intro r hr
  simpa using h r hr

theorem FindByIdempotencyKey_present {db : gorm.DB} {k : String} {t : models.Transaction}
    (ht : t ∈ db.transactions) (hk : t.IdempotencyKey = k) :
    ∃ b, transactionRepository.FindByIdempotencyKey db k = .ok b := by
  unfold transactionRepository.FindByIdempotencyKey
  exact gorm.First_some _ ht (by simpa using hk)

theorem exists_key_append (l : List models.Transaction) (d : models.Transaction) (k : String) :
    (∃ t ∈ l ++ [d], t.IdempotencyKey = k) ↔
      ((∃ t ∈ l, t.IdempotencyKey = k) ∨ d.IdempotencyKey = k) := by
  constructor
  · rintro ⟨t, ht, hk⟩
    simp only [List.mem_append, List.mem_singleton] at ht
    rcases ht with ht | ht
    · exact Or.inl ⟨t, ht, hk⟩
    · subst ht
      exact Or.inr hk
  · rintro (⟨t, ht, hk⟩ | hk)
    · exact ⟨t, List.mem_append_left _ ht, hk⟩
    · exact ⟨d, List.mem_append_right _ (List.mem_singleton_self d), hk⟩

/-- An insert of a row with zero `ID` and zero `CreatedAt` is decided by the unique index on
the token alone. -/
theorem Create_eq (tx : gorm.DB) (row : models.Transaction) (now : Nat)
    (hid : row.ID = 0) (hct : row.CreatedAt = 0) :
    transactionRepository.Create tx row now =
      if ∃ t ∈ tx.transactions, t.IdempotencyKey = row.IdempotencyKey then
        .error .ErrDuplicatedKey
      else
        .ok { tx with transactions := tx.transactions ++
                [{ row with ID := gorm.nextID models.Transaction.ID tx.transactions
                            CreatedAt := now }] } := by
  unfold transactionRepository.Create
  simp only [hid, hct, if_true]
  by_cases h : ∃ t ∈ tx.transactions, t.IdempotencyKey = row.IdempotencyKey
  · obtain ⟨t, ht, hk⟩ := h
    rw [if_pos, if_pos ⟨t, ht, hk⟩]
    simp only [List.any_eq_true, Bool.or_eq_true, beq_iff_eq]
    exact ⟨t, ht, Or.inr hk⟩
  · rw [if_neg, if_neg h]
    simp only [List.any_eq_true, Bool.or_eq_true, beq_iff_eq, not_exists, not_and, not_or]
    intro t ht
    exact ⟨Nat.ne_of_lt (gorm.lt_nextID _ _ t ht), fun hk => h ⟨t, ht, hk⟩⟩

/-- The unit of work of `Transfer`, with the two inserts resolved against the ledger. -/
theorem func1_eq (db : gorm.DB) (sender recipient : models.User) (sw rw : models.Wallet)
    (amount : ℚ) (notes key : String) (tDebit tCredit : Nat)
    (hsw : walletRepository.FindByUserID db sender.ID = .ok sw)
    (hrw : walletRepository.FindByUserID db recipient.ID = .ok rw) :
    walletService.Transfer.func1 db sender recipient amount notes key tDebit tCredit db =
      if sw.Balance < amount then .error .ErrInsufficientBalance
      else if ∃ t ∈ db.transactions, t.IdempotencyKey = key then
        .error (.Errorf "error creating debit transaction" .ErrDuplicatedKey)
      else if ∃ t ∈ db.transactions, t.IdempotencyKey = key ++ "-credit" then
        .error (.Errorf "error creating credit transaction" .ErrDuplicatedKey)
      else .ok (walletService.Transfer.committed db sender recipient sw rw amount notes key
                  tDebit tCredit) := by
  unfold walletService.Transfer.func1
  simp only [hsw, hrw, walletRepository.UpdateBalance]
  by_cases hbal : sw.Balance < amount
  · simp only [hbal, if_true]
  simp only [hbal, if_false]
  rw [Create_eq _ _ _ rfl rfl]
  simp only
  by_cases hd : ∃ t ∈ db.transactions, t.IdempotencyKey = key
  · simp only [hd, if_true]
  simp only [hd, if_false]
  rw [Create_eq _ _ _ rfl rfl]
  simp only
  have hne : ¬ key = key ++ "-credit" := append_credit_ne key
  by_cases hc : ∃ t ∈ db.transactions, t.IdempotencyKey = key ++ "-credit"
  · simp only [exists_key_append, hc, true_or, if_true]
  · simp only [exists_key_append, hc, hne, or_self, if_false]
    simp [walletService.Transfer.committed, walletService.Transfer.debitRow,
      walletService.Transfer.creditRow]

/-- The unit of work of `Transfer` on a state where both wallets exist, the balance
suffices and both tokens are free. -/
theorem func1_commit (db : gorm.DB) (sender recipient : models.User) (sw rw : models.Wallet)
    (amount : ℚ) (notes key : String) (tDebit tCredit : Nat)
    (hsw : walletRepository.FindByUserID db sender.ID = .ok sw)
    (hrw : walletRepository.FindByUserID db recipient.ID = .ok rw)
    (hbal : amount ≤ sw.Balance)
    (hkey : ∀ t ∈ db.transactions, t.IdempotencyKey ≠ key ∧ t.IdempotencyKey ≠ key ++ "-credit") :
    walletService.Transfer.func1 db sender recipient amount notes key tDebit tCredit db =
      .ok (walletService.Transfer.committed db sender recipient sw rw amount notes key
            tDebit tCredit) := by
  rw [func1_eq db sender recipient sw rw amount notes key tDebit tCredit hsw hrw]
  rw [if_neg (not_lt.2 hbal), if_neg, if_neg]
  · rintro ⟨t, ht, hk⟩; exact (hkey t ht).2 hk
  · rintro ⟨t, ht, hk⟩; exact (hkey t ht).1 hk

/-- Whenever the unit of work of `Transfer` returns a state, it is the committed one. -/
theorem func1_ok_inv (db : gorm.DB) (sender recipient : models.User)
    (amount : ℚ) (notes key : String) (tDebit tCredit : Nat) (db' : gorm.DB)
    (h : walletService.Transfer.func1 db sender recipient amount notes key tDebit tCredit db
          = .ok db') :
    ∃ sw rw, walletRepository.FindByUserID db sender.ID = .ok sw ∧
      walletRepository.FindByUserID db recipient.ID = .ok rw ∧ amount ≤ sw.Balance ∧
      (∀ t ∈ db.transactions, t.IdempotencyKey ≠ key ∧ t.IdempotencyKey ≠ key ++ "-credit") ∧
      db' = walletService.Transfer.committed db sender recipient sw rw amount notes key
              tDebit tCredit := by
  cases hsw : walletRepository.FindByUserID db sender.ID with
  | error e => simp [walletService.Transfer.func1, hsw] at h
  | ok sw =>
  cases hrw : walletRepository.FindByUserID db recipient.ID with
  | error e => simp [walletService.Transfer.func1, hsw, hrw] at h
  | ok rw =>
  rw [func1_eq db sender recipient sw rw amount notes key tDebit tCredit hsw hrw] at h
  by_cases hbal : sw.Balance < amount
  · simp [hbal] at h
  by_cases hd : ∃ t ∈ db.transactions, t.IdempotencyKey = key
  · simp only [hbal, hd, if_true, if_false] at h
    simp at h
  by_cases hc : ∃ t ∈ db.transactions, t.IdempotencyKey = key ++ "-credit"
  · simp only [hbal, hd, hc, if_true, if_false] at h
    simp at h
  simp only [hbal, hd, hc, if_false, Except.ok.injEq] at h
  refine ⟨sw, rw, rfl, rfl, not_lt.1 hbal, ?_, h.symm⟩
  intro t ht
  exact ⟨fun hk => hd ⟨t, ht, hk⟩, fun hk => hc ⟨t, ht, hk⟩⟩

/-- Normal form of `Transfer`: the replay test is a membership test on the ledger, and the
only lookup failure of the deterministic store is `ErrRecordNotFound`. -/
theorem Transfer_eq (db : gorm.DB) (senderID : Nat) (recipientEmail : String) (amount : ℚ)
    (notes key : String) (tDebit tCredit : Nat) :
    walletService.Transfer db senderID recipientEmail amount notes key tDebit tCredit =
      if key ≠ "" ∧ ∃ t ∈ db.transactions, t.IdempotencyKey = key then (none, db)
      else if amount ≤ 0 then (some .ErrInvalidAmount, db)
      else
        match userRepository.FindByID db senderID with
        | .error _ => (some (.Errorf "error finding sender" .ErrRecordNotFound), db)
        | .ok sender =>
          match userRepository.FindByEmail db recipientEmail with
          | .error _ => (some .ErrRecipientNotFound, db)
          | .ok recipient =>
            if sender.ID = recipient.ID then (some .ErrSelfTransfer, db)
            else db.Transaction (walletService.Transfer.func1 db sender recipient amount notes
                                  key tDebit tCredit) := by
  have hrest : ∀ r : Option (Option GoError), r = none →
      (match r with
        | some result => (result, db)
        | none =>
          if amount ≤ 0 then (some GoError.ErrInvalidAmount, db) else
          match userRepository.FindByID db senderID with
          | .error err => (some (.Errorf "error finding sender" err), db)
          | .ok sender =>
          match userRepository.FindByEmail db recipientEmail with
          | .error err =>
            if errors.Is err .ErrRecordNotFound then (some .ErrRecipientNotFound, db)
            else (some (.Errorf "error finding recipient" err), db)
          | .ok recipient =>
          if sender.ID = recipient.ID then (some .ErrSelfTransfer, db) else
          db.Transaction
            (walletService.Transfer.func1 db sender recipient amount notes key tDebit tCredit)) =
      (if amount ≤ 0 then (some .ErrInvalidAmount, db)
      else
        match userRepository.FindByID db senderID with
        | .error _ => (some (.Errorf "error finding sender" .ErrRecordNotFound), db)
        | .ok sender =>
          match userRepository.FindByEmail db recipientEmail with
          | .error _ => (some .ErrRecipientNotFound, db)
          | .ok recipient =>
            if sender.ID = recipient.ID then (some .ErrSelfTransfer, db)
            else db.Transaction (walletService.Transfer.func1 db sender recipient amount notes
                                  key tDebit tCredit)) := by
    intro r hr
    subst hr
    simp only
    by_cases ha : amount ≤ 0
    · simp only [ha, if_true]
    simp only [ha, if_false]
    cases hs : userRepository.FindByID db senderID with
    | error e =>
      have := (gorm.First_error hs).1
      subst this
      rfl
    | ok sender =>
      simp only
      cases hr : userRepository.FindByEmail db recipientEmail with
      | error e =>
        have := (gorm.First_error hr).1
        subst this
        rfl
      | ok recipient => rfl
  unfold walletService.Transfer
  simp only
  by_cases hk : key = ""
  · subst hk
    simp only [ne_eq, not_true_eq_false, if_false, false_and]
    exact hrest none rfl
  · cases hf : transactionRepository.FindByIdempotencyKey db key with
    | ok t =>
      have hm := gorm.First_ok hf
      have hex : ∃ t ∈ db.transactions, t.IdempotencyKey = key :=
        ⟨t, hm.1, by simpa using hm.2⟩
      simp only [ne_eq, hk, not_false_eq_true, if_true, hex, and_self]
    | error e =>
      have he := gorm.First_error hf
      have hne : ¬ ∃ t ∈ db.transactions, t.IdempotencyKey = key := by
        rintro ⟨t, ht, hkey⟩
        have := he.2 t ht
        simp [hkey] at this
      have h1 := he.1
      subst h1
      have hIs : errors.Is .ErrRecordNotFound .ErrRecordNotFound = true := by decide
      simp only [ne_eq, hk, not_false_eq_true, if_true, hne, and_false, if_false, hIs,
        Bool.not_true, Bool.false_eq_true]
      exact hrest none rfl

theorem append_credit_injective {k1 k2 : String} (h : k1 ++ "-credit" = k2 ++ "-credit") :
    k1 = k2 := by
  have := congrArg String.data h
  rw [String.data_append, String.data_append] at this
  exact String.ext (List.append_cancel_right this)

/-- In a store where every user owns a wallet, the wallet lookup of a user succeeds. -/
theorem FindByUserID_owner {db : gorm.DB}
    (hwallet : ∀ u ∈ db.users, ∃ w ∈ db.wallets, w.UserID = u.ID) {u : models.User}
    (hu : u ∈ db.users) : ∃ w, walletRepository.FindByUserID db u.ID = .ok w := by
  obtain ⟨w, hw, hwu⟩ := hwallet u hu
  unfold walletRepository.FindByUserID
  exact gorm.First_some _ hw (by simpa using hwu)

/-- A transfer between two distinct users with wallets, a positive amount within the
sender's balance and two free tokens commits. -/
theorem Transfer_commit (db : gorm.DB) (sender recipient : models.User) (sw rw : models.Wallet)
    (senderID : Nat) (recipientEmail : String) (amount : ℚ) (notes key : String)
    (tDebit tCredit : Nat)
    (hs : userRepository.FindByID db senderID = .ok sender)
    (hr : userRepository.FindByEmail db recipientEmail = .ok recipient)
    (hne : sender.ID ≠ recipient.ID)
    (hsw : walletRepository.FindByUserID db sender.ID = .ok sw)
    (hrw : walletRepository.FindByUserID db recipient.ID = .ok rw)
    (hpos : 0 < amount) (hbal : amount ≤ sw.Balance)
    (hkey : ∀ t ∈ db.transactions, t.IdempotencyKey ≠ key ∧ t.IdempotencyKey ≠ key ++ "-credit") :
    walletService.Transfer db senderID recipientEmail amount notes key tDebit tCredit =
      (none, walletService.Transfer.committed db sender recipient sw rw amount notes key
              tDebit tCredit) := by
  rw [Transfer_eq, if_neg, if_neg (not_le.2 hpos)]
  · simp only [hs, hr, hne, if_false, gorm.DB.Transaction]
    rw [func1_commit db sender recipient sw rw amount notes key tDebit tCredit hsw hrw hbal hkey]
  · rintro ⟨_, t, ht, hk⟩
    exact (hkey t ht).1 hk

/-- A non-empty key that is already a token of the ledger makes `Transfer` a replay. -/
theorem Transfer_replay (db : gorm.DB) (senderID : Nat) (recipientEmail : String) (amount : ℚ)
    (notes key : String) (tDebit tCredit : Nat) (hk : key ≠ "")
    (hex : ∃ t ∈ db.transactions, t.IdempotencyKey = key) :
    walletService.Transfer db senderID recipientEmail amount notes key tDebit tCredit =
      (none, db) := by
  rw [Transfer_eq, if_pos ⟨hk, hex⟩]

/-- Every `Transfer` call is a replay (success, nothing written), or fails and leaves the
database untouched, or returns success with the committed state of a valid transfer. -/
theorem Transfer_cases (db : gorm.DB) (senderID : Nat) (recipientEmail : String) (amount : ℚ)
    (notes key : String) (tDebit tCredit : Nat) :
    ((key ≠ "" ∧ ∃ t ∈ db.transactions, t.IdempotencyKey = key) ∧
      walletService.Transfer db senderID recipientEmail amount notes key tDebit tCredit =
        (none, db)) ∨
    (∃ e, walletService.Transfer db senderID recipientEmail amount notes key tDebit tCredit =
        (some e, db)) ∨
    ∃ sender recipient sw rw,
      userRepository.FindByID db senderID = .ok sender ∧
      userRepository.FindByEmail db recipientEmail = .ok recipient ∧
      sender.ID ≠ recipient.ID ∧
      walletRepository.FindByUserID db sender.ID = .ok sw ∧
      walletRepository.FindByUserID db recipient.ID = .ok rw ∧
      0 < amount ∧ amount ≤ sw.Balance ∧
      (∀ t ∈ db.transactions, t.IdempotencyKey ≠ key ∧ t.IdempotencyKey ≠ key ++ "-credit") ∧
      walletService.Transfer db senderID recipientEmail amount notes key tDebit tCredit =
        (none, walletService.Transfer.committed db sender recipient sw rw amount notes key
                tDebit tCredit) := by
  rw [Transfer_eq]
  by_cases hdup : key ≠ "" ∧ ∃ t ∈ db.transactions, t.IdempotencyKey = key
  · left; rw [if_pos hdup]; exact ⟨hdup, rfl⟩
  right
  rw [if_neg hdup]
  by_cases ha : amount ≤ 0
  · left; rw [if_pos ha]; exact ⟨_, rfl⟩
  rw [if_neg ha]
  cases hs : userRepository.FindByID db senderID with
  | error e => left; exact ⟨_, rfl⟩
  | ok sender =>
  cases hr : userRepository.FindByEmail db recipientEmail with
  | error e => left; exact ⟨_, rfl⟩
  | ok recipient =>
  simp only
  by_cases hself : sender.ID = recipient.ID
  · left; rw [if_pos hself]; exact ⟨_, rfl⟩
  rw [if_neg hself]
  cases hf : walletService.Transfer.func1 db sender recipient amount notes key tDebit tCredit db with
  | error e => left; exact ⟨e, by simp [gorm.DB.Transaction, hf]⟩
  | ok db' =>
    right
    obtain ⟨sw, rw, hsw, hrw, hbal, hkey, hdb'⟩ :=
      func1_ok_inv db sender recipient amount notes key tDebit tCredit db' hf
    refine ⟨sender, recipient, sw, rw, rfl, rfl, hself, hsw, hrw, not_le.1 ha, hbal, hkey, ?_⟩
    simp [gorm.DB.Transaction, hf, hdb']

/-- Wallets of two different users have different primary keys. -/
theorem wallet_ids_ne {db : gorm.DB} (hdb : db.Constraints) {u v : Nat} {sw rw : models.Wallet}
    (hsw : walletRepository.FindByUserID db u = .ok sw)
    (hrw : walletRepository.FindByUserID db v = .ok rw) (hne : u ≠ v) : sw.ID ≠ rw.ID := by
  have h1 := gorm.First_ok hsw
  have h2 := gorm.First_ok hrw
  intro hid
  have := List.inj_on_of_nodup_map hdb.2.2.1 h1.1 h2.1 hid
  subst this
  have e1 : sw.UserID = u := by simpa using h1.2
  have e2 : sw.UserID = v := by simpa using h2.2
  exact hne (e1.symm.trans e2)

/-- Looking up a wallet after the two balance updates of a committed transfer. -/
theorem FindByUserID_committed (db : gorm.DB) (sender recipient : models.User)
    (sw rw : models.Wallet) (amount : ℚ) (notes key : String) (tDebit tCredit : Nat) (u : Nat) :
    walletRepository.FindByUserID
        (walletService.Transfer.committed db sender recipient sw rw amount notes key
          tDebit tCredit) u =
      (walletRepository.FindByUserID db u).map
        (fun w => walletRepository.UpdateBalance.set rw.ID (rw.Balance + amount)
          (walletRepository.UpdateBalance.set sw.ID (sw.Balance - amount) w)) := by
  unfold walletRepository.FindByUserID walletService.Transfer.committed
  simp only [List.map_map]
  rw [← gorm.First_map]
  · rfl
  · intro r
    simp only [walletRepository.UpdateBalance.set]
    split <;> split <;> rfl
  · intro r
    simp only [walletRepository.UpdateBalance.set]
    split <;> split <;> rfl

/-- Overwriting the balance of the single row with primary key `w.ID` shifts the total by
the difference. -/
theorem sum_UpdateBalance_set (b : ℚ) :
    ∀ (l : List models.Wallet) (w : models.Wallet), (l.map models.Wallet.ID).Nodup → w ∈ l →
      ((l.map (walletRepository.UpdateBalance.set w.ID b)).map models.Wallet.Balance).sum =
        (l.map models.Wallet.Balance).sum - w.Balance + b := by
  intro l
  induction l with
  | nil => intro w _ hw; simp at hw
  | cons a as ih =>
    intro w hnd hw
    simp only [List.map_cons, List.nodup_cons] at hnd
    simp only [List.map_cons, List.sum_cons]
    rcases List.mem_cons.1 hw with h | h
    · subst h
      have hid : as.map (walletRepository.UpdateBalance.set w.ID b) = as := by
        conv_rhs => rw [← List.map_id as]
        apply List.map_congr_left
        intro x hx
        have : x.ID ≠ w.ID := by
          intro hx'
          exact hnd.1 (hx' ▸ List.mem_map_of_mem models.Wallet.ID hx)
        simp [walletRepository.UpdateBalance.set, this]
      rw [hid]
      simp only [walletRepository.UpdateBalance.set, if_true]
      ring
    · have hne : a.ID ≠ w.ID := by
        intro ha
        exact hnd.1 (ha ▸ List.mem_map_of_mem models.Wallet.ID h)
      rw [ih w hnd.2 h]
      simp only [walletRepository.UpdateBalance.set, hne, if_false]
      ring

theorem map_ID_UpdateBalance_set (i : Nat) (b : ℚ) (l : List models.Wallet) :
    (l.map (walletRepository.UpdateBalance.set i b)).map models.Wallet.ID =
      l.map models.Wallet.ID := by
  rw [List.map_map]
  apply List.map_congr_left
  intro x _
  simp only [Function.comp, walletRepository.UpdateBalance.set]
  split <;> rfl

/-- The two balance updates of a committed transfer leave the total of all balances as it
was. -/
theorem sum_committed (db : gorm.DB) (hdb : db.Constraints) (sender recipient : models.User)
    (sw rw : models.Wallet) (amount : ℚ) (notes key : String) (tDebit tCredit : Nat)
    (hsw : walletRepository.FindByUserID db sender.ID = .ok sw)
    (hrw : walletRepository.FindByUserID db recipient.ID = .ok rw)
    (hne : sender.ID ≠ recipient.ID) :
    ((walletService.Transfer.committed db sender recipient sw rw amount notes key
        tDebit tCredit).wallets.map models.Wallet.Balance).sum =
      (db.wallets.map models.Wallet.Balance).sum := by
  have hids : sw.ID ≠ rw.ID := wallet_ids_ne hdb hsw hrw hne
  have hswm := (gorm.First_ok hsw).1
  have hrwm := (gorm.First_ok hrw).1
  have hnd : (db.wallets.map models.Wallet.ID).Nodup := hdb.2.2.1
  have hrw1 : rw ∈ db.wallets.map (walletRepository.UpdateBalance.set sw.ID (sw.Balance - amount)) := by
    refine List.mem_map.2 ⟨rw, hrwm, ?_⟩
    simp [walletRepository.UpdateBalance.set, Ne.symm hids]
  have hnd1 : ((db.wallets.map
      (walletRepository.UpdateBalance.set sw.ID (sw.Balance - amount))).map
        models.Wallet.ID).Nodup := by
    rw [map_ID_UpdateBalance_set]; exact hnd
  simp only [walletService.Transfer.committed]
  rw [sum_UpdateBalance_set _ _ rw hnd1 hrw1, sum_UpdateBalance_set _ _ sw hnd hswm]
  ring

/-- The committed ledger holds a row whose token is the caller's key. -/
theorem committed_has_key (db : gorm.DB) (sender recipient : models.User)
    (sw rw : models.Wallet) (amount : ℚ) (notes key : String) (tDebit tCredit : Nat) :
    ∃ t ∈ (walletService.Transfer.committed db sender recipient sw rw amount notes key
            tDebit tCredit).transactions, t.IdempotencyKey = key := by
  simp only [walletService.Transfer.committed]
  exact ⟨_, List.mem_append_left _ (List.mem_append_right _ (List.mem_singleton_self _)), rfl⟩

/-- A call that changes the database leaves its key as a token of the ledger. -/
theorem Transfer_changed_has_key (db : gorm.DB) (senderID : Nat) (recipientEmail : String)
    (amount : ℚ) (notes key : String) (tDebit tCredit : Nat)
    (h : (walletService.Transfer db senderID recipientEmail amount notes key tDebit tCredit).2
          ≠ db) :
    ∃ t ∈ (walletService.Transfer db senderID recipientEmail amount notes key
            tDebit tCredit).2.transactions, t.IdempotencyKey = key := by
  rcases Transfer_cases db senderID recipientEmail amount notes key tDebit tCredit with
    ⟨_, h'⟩ | ⟨e, h'⟩ | ⟨sender, recipient, sw, rw, _, _, _, _, _, _, _, _, h'⟩
  · rw [h'] at h; exact absurd rfl h
  · rw [h'] at h; exact absurd rfl h
  · rw [h']
    exact committed_has_key db sender recipient sw rw amount notes key tDebit tCredit

/-- The ledger is append-only under `Transfer`. -/
theorem Transfer_ledger_mono (db : gorm.DB) (senderID : Nat) (recipientEmail : String)
    (amount : ℚ) (notes key : String) (tDebit tCredit : Nat) (t : models.Transaction)
    (ht : t ∈ db.transactions) :
    t ∈ (walletService.Transfer db senderID recipientEmail amount notes key
          tDebit tCredit).2.transactions := by
  rcases Transfer_cases db senderID recipientEmail amount notes key tDebit tCredit with
    ⟨_, h'⟩ | ⟨e, h'⟩ | ⟨sender, recipient, sw, rw, _, _, _, _, _, _, _, _, h'⟩
  · rw [h']; exact ht
  · rw [h']; exact ht
  · rw [h']
    simp [walletService.Transfer.committed, ht]

/-- A call whose key is already a token of the ledger changes nothing. -/
theorem Transfer_unchanged_of_key_present (db : gorm.DB) (senderID : Nat)
    (recipientEmail : String) (amount : ℚ) (notes key : String) (tDebit tCredit : Nat)
    (hex : ∃ t ∈ db.transactions, t.IdempotencyKey = key) :
    (walletService.Transfer db senderID recipientEmail amount notes key tDebit tCredit).2
      = db := by
  rcases Transfer_cases db senderID recipientEmail amount notes key tDebit tCredit with
    ⟨_, h'⟩ | ⟨e, h'⟩ | ⟨sender, recipient, sw, rw, _, _, _, _, _, _, _, hkey, _⟩
  · rw [h']
  · rw [h']
  · obtain ⟨t, ht, hk⟩ := hex
    exact absurd hk (hkey t ht).1

/-- The balance check of the unit of work: a balance below the amount aborts the transfer. -/
theorem Transfer_insufficient (db : gorm.DB) (sender recipient : models.User)
    (sw rw : models.Wallet) (senderID : Nat) (recipientEmail : String) (amount : ℚ)
    (notes key : String) (tDebit tCredit : Nat)
    (hs : userRepository.FindByID db senderID = .ok sender)
    (hr : userRepository.FindByEmail db recipientEmail = .ok recipient)
    (hne : sender.ID ≠ recipient.ID)
    (hsw : walletRepository.FindByUserID db sender.ID = .ok sw)
    (hrw : walletRepository.FindByUserID db recipient.ID = .ok rw)
    (hpos : 0 < amount) (hlt : sw.Balance < amount)
    (hkey : ∀ t ∈ db.transactions, t.IdempotencyKey ≠ key) :
    walletService.Transfer db senderID recipientEmail amount notes key tDebit tCredit =
      (some .ErrInsufficientBalance, db) := by
  rw [Transfer_eq, if_neg, if_neg (not_le.2 hpos)]
  · simp only [hs, hr, hne, if_false, gorm.DB.Transaction]
    rw [func1_eq db sender recipient sw rw amount notes key tDebit tCredit hsw hrw,
      if_pos hlt]
  · rintro ⟨_, t, ht, hk⟩
    exact hkey t ht hk

/-- The self-transfer check: a recipient with the sender's identity is rejected before the
unit of work starts. -/
theorem Transfer_self (db : gorm.DB) (sender recipient : models.User)
    (senderID : Nat) (recipientEmail : String) (amount : ℚ)
    (notes key : String) (tDebit tCredit : Nat)
    (hs : userRepository.FindByID db senderID = .ok sender)
    (hr : userRepository.FindByEmail db recipientEmail = .ok recipient)
    (hsame : recipient.ID = sender.ID)
    (hpos : 0 < amount)
    (hkey : ∀ t ∈ db.transactions, t.IdempotencyKey ≠ key) :
    walletService.Transfer db senderID recipientEmail amount notes key tDebit tCredit =
      (some .ErrSelfTransfer, db) := by
  rw [Transfer_eq, if_neg, if_neg (not_le.2 hpos)]
  · simp only [hs, hr, hsame, if_true]
  · rintro ⟨_, t, ht, hk⟩
    exact hkey t ht hk

end service

theorem stateAfter_succ (db : gorm.DB) (calls : List TransferCall) (n : Nat) (c : TransferCall)
    (hc : calls[n]? = some c) :
    stateAfter db calls (n + 1) = TransferCall.run (stateAfter db calls n) c := by
  unfold stateAfter
  rw [List.take_succ, hc]
  simp [List.foldl_append]

theorem stateAfter_ledger_mono (db : gorm.DB) (calls : List TransferCall)
    (t : models.Transaction) (i : Nat) (ht : t ∈ (stateAfter db calls i).transactions) :
    ∀ j, i ≤ j → t ∈ (stateAfter db calls j).transactions := by
  intro j hij
  induction j with
  | zero =>
    have : i = 0 := Nat.le_zero.1 hij
    subst this
    exact ht
  | succ n ih =>
    rcases Nat.lt_or_ge i (n + 1) with hlt | hge
    · have hn := ih (Nat.lt_succ_iff.1 hlt)
      cases hc : calls[n]? with
      | none =>
        have hlen : calls.length ≤ n := by
          rcases Nat.lt_or_ge n calls.length with h | h
          · rw [List.getElem?_eq_getElem h] at hc
            simp at hc
          · exact h
        have e1 : stateAfter db calls (n + 1) = stateAfter db calls n := by
          unfold stateAfter
          rw [List.take_of_length_le hlen, List.take_of_length_le (Nat.le_succ_of_le hlen)]
        rw [e1]; exact hn
      | some c =>
        rw [stateAfter_succ db calls n c hc]
        exact service.Transfer_ledger_mono _ _ _ _ _ _ _ _ t hn
    · have : i = n + 1 := Nat.le_antisymm hij hge
      subst this
      exact ht

/-! ## Properties of `Transfer` -/

/-- C1: in a store satisfying the schema constraints, where sender and recipient are
distinct users each owning a wallet, for every amount `> 0` within the sender's balance and
every idempotency key whose two tokens (`key` and `key ++ "-credit"`) are not in the ledger,
`Transfer` returns success; afterwards the recipient's wallet holds its previous balance plus
the amount and the sender's wallet its previous balance minus the amount. -/
theorem transfer_success_moves_amount (db : gorm.DB) (sender recipient : models.User)
    (sw rw : models.Wallet) (senderID : Nat) (recipientEmail : String) (amount : ℚ)
    (notes key : String) (tDebit tCredit : Nat)
    (hdb : db.Constraints)
    (hs : userRepository.FindByID db senderID = .ok sender)
    (hr : userRepository.FindByEmail db recipientEmail = .ok recipient)
    (hne : sender.ID ≠ recipient.ID)
    (hsw : walletRepository.FindByUserID db sender.ID = .ok sw)
    (hrw : walletRepository.FindByUserID db recipient.ID = .ok rw)
    (hpos : 0 < amount) (hbal : amount ≤ sw.Balance)
    (hkey : ∀ t ∈ db.transactions,
      t.IdempotencyKey ≠ key ∧ t.IdempotencyKey ≠ key ++ "-credit") :
    (walletService.Transfer db senderID recipientEmail amount notes key tDebit tCredit).1 = none ∧
    walletRepository.FindByUserID
        (walletService.Transfer db senderID recipientEmail amount notes key tDebit tCredit).2
        recipient.ID = .ok { rw with Balance := rw.Balance + amount } ∧
    walletRepository.FindByUserID
        (walletService.Transfer db senderID recipientEmail amount notes key tDebit tCredit).2
        sender.ID = .ok { sw with Balance := sw.Balance - amount } := by
  have hids : sw.ID ≠ rw.ID := wallet_ids_ne hdb hsw hrw hne
  rw [Transfer_commit db sender recipient sw rw senderID recipientEmail amount notes key
        tDebit tCredit hs hr hne hsw hrw hpos hbal hkey]
  refine ⟨rfl, ?_, ?_⟩
  · simp only [FindByUserID_committed, hrw, Except.map, walletRepository.UpdateBalance.set,
      Ne.symm hids, if_false, if_true]
  · simp only [FindByUserID_committed, hsw, Except.map, walletRepository.UpdateBalance.set,
      hids, if_false, if_true]

/-- Witness for C1: the successful transfer of the repository's test (200 out of 1000). -/
theorem transfer_success_moves_amount_witness :
    (walletService.Transfer db0 1 "recipient@example.com" 200 "Test payment" "test-key-1" 5 6).1
      = none ∧
    walletRepository.FindByUserID
      (walletService.Transfer db0 1 "recipient@example.com" 200 "Test payment" "test-key-1" 5 6).2
      2 = .ok { (⟨2, 2, 1000⟩ : models.Wallet) with Balance := 1000 + 200 } ∧
    walletRepository.FindByUserID
      (walletService.Transfer db0 1 "recipient@example.com" 200 "Test payment" "test-key-1" 5 6).2
      1 = .ok { (⟨1, 1, 1000⟩ : models.Wallet) with Balance := 1000 - 200 } :=
  transfer_success_moves_amount db0 ⟨1, "sender@example.com", "hashedpassword"⟩
    ⟨2, "recipient@example.com", "hashedpassword"⟩ ⟨1, 1, 1000⟩ ⟨2, 2, 1000⟩
    1 "recipient@example.com" 200 "Test payment" "test-key-1" 5 6
    (by decide) (by rfl) (by rfl) (by decide) (by rfl) (by rfl) (by decide) (by decide)
    (by decide)

/-- C2: in a store satisfying the schema constraints (so each user owns at most one wallet
and wallet identifiers are unique), for every `Transfer` call with any arguments, whatever
it returns, the sum of all wallet balances after the call equals the sum before it. -/
theorem transfer_conserves_total (db : gorm.DB) (senderID : Nat) (recipientEmail : String)
    (amount : ℚ) (notes key : String) (tDebit tCredit : Nat) (hdb : db.Constraints) :
    (((walletService.Transfer db senderID recipientEmail amount notes key
        tDebit tCredit).2).wallets.map models.Wallet.Balance).sum =
      (db.wallets.map models.Wallet.Balance).sum := by
  rcases Transfer_cases db senderID recipientEmail amount notes key tDebit tCredit with
    ⟨_, h⟩ | ⟨e, h⟩ | ⟨sender, recipient, sw, rw, _, _, hne, hsw, hrw, _, _, _, h⟩
  · rw [h]
  · rw [h]
  · rw [h]
    exact sum_committed db hdb sender recipient sw rw amount notes key tDebit tCredit hsw hrw hne

/-- Witness for C2: the total stays 2000 across the test transfer of 200. -/
theorem transfer_conserves_total_witness :
    (((walletService.Transfer db0 1 "recipient@example.com" 200 "Test payment" "test-key-1"
        5 6).2).wallets.map models.Wallet.Balance).sum =
      (db0.wallets.map models.Wallet.Balance).sum :=
  transfer_conserves_total db0 1 "recipient@example.com" 200 "Test payment" "test-key-1" 5 6
    (by decide)

/-- Non-negativity for amounts that are numbers: when every wallet balance is `≥ 0` before
a `Transfer` call whose amount is an exact number, every wallet balance is `≥ 0` after it,
for every sender, recipient, note and idempotency key. -/
theorem transfer_preserves_nonneg (db : gorm.DB) (senderID : Nat) (recipientEmail : String)
    (amount : ℚ) (notes key : String) (tDebit tCredit : Nat)
    (h0 : ∀ w ∈ db.wallets, 0 ≤ w.Balance) :
    ∀ w ∈ ((walletService.Transfer db senderID recipientEmail amount notes key
              tDebit tCredit).2).wallets, 0 ≤ w.Balance := by
  rcases Transfer_cases db senderID recipientEmail amount notes key tDebit tCredit with
    ⟨_, h⟩ | ⟨e, h⟩ | ⟨sender, recipient, sw, rw, _, _, _, _, hrw, hpos, hbal, _, h⟩
  · rw [h]; exact h0
  · rw [h]; exact h0
  · rw [h]
    have hrw0 : 0 ≤ rw.Balance := h0 rw (gorm.First_ok hrw).1
    intro w hw
    simp only [walletService.Transfer.committed, List.mem_map] at hw
    obtain ⟨w1, ⟨w0, hw0, rfl⟩, rfl⟩ := hw
    have := h0 w0 hw0
    simp only [walletRepository.UpdateBalance.set]
    split_ifs <;> first | linarith | (simp only; linarith)

/-- Instance of `transfer_preserves_nonneg`: both balances of the test fixture stay
non-negative when the sender transfers its whole balance. -/
theorem transfer_preserves_nonneg_witness :
    ((walletService.Transfer db0 1 "recipient@example.com" 1000 "all" "k" 5 6).2).wallets.all
      (fun w => decide (0 ≤ w.Balance)) = true :=
  List.all_eq_true.2 (fun w hw => decide_eq_true
    (transfer_preserves_nonneg db0 1 "recipient@example.com" 1000 "all" "k" 5 6 (by decide) w hw))

/-- C4: for every non-empty idempotency key, once a `Transfer` call with that key has
returned success, a second call with the same key and the same parameters returns success
and leaves the whole database (every wallet balance and the ledger) exactly as it was after
the first call. -/
theorem transfer_retry_is_noop (db : gorm.DB) (senderID : Nat) (recipientEmail : String)
    (amount : ℚ) (notes key : String) (tDebit tCredit tDebit2 tCredit2 : Nat)
    (hk : key ≠ "")
    (h1 : (walletService.Transfer db senderID recipientEmail amount notes key
            tDebit tCredit).1 = none) :
    walletService.Transfer
        (walletService.Transfer db senderID recipientEmail amount notes key tDebit tCredit).2
        senderID recipientEmail amount notes key tDebit2 tCredit2 =
      (none,
        (walletService.Transfer db senderID recipientEmail amount notes key tDebit tCredit).2) := by
  apply service.Transfer_replay _ _ _ _ _ _ _ _ hk
  rcases service.Transfer_cases db senderID recipientEmail amount notes key tDebit tCredit with
    ⟨⟨_, hex⟩, h⟩ | ⟨e, h⟩ | ⟨sender, recipient, sw, rw, _, _, _, _, _, _, _, _, h⟩
  · rw [h]; exact hex
  · rw [h] at h1; simp at h1
  · rw [h]
    exact service.committed_has_key db sender recipient sw rw amount notes key tDebit tCredit

/-- Witness for C4: the idempotency test of the repository (key `idempotent-key`). -/
theorem transfer_retry_is_noop_witness :
    walletService.Transfer
        (walletService.Transfer db0 1 "recipient@example.com" 50 "First" "idempotent-key" 5 6).2
        1 "recipient@example.com" 50 "First" "idempotent-key" 7 8 =
      (none,
        (walletService.Transfer db0 1 "recipient@example.com" 50 "First" "idempotent-key"
          5 6).2) :=
  transfer_retry_is_noop db0 1 "recipient@example.com" 50 "First" "idempotent-key" 5 6 7 8
    (by decide) (by decide)

/-- C5: in every finite sequence of `Transfer` calls (from any initial store, in particular
one with an empty ledger) and for every idempotency key `k`, at most one call given `k`
changes the database: if the call at position `i` was given `k` and changed a balance or
the ledger, every later call given `k` leaves the database exactly as it found it. -/
theorem at_most_one_commit_per_key (db : gorm.DB) (calls : List TransferCall) (k : String)
    (i j : Nat) (ci cj : TransferCall) (hij : i < j)
    (hi : calls[i]? = some ci) (hj : calls[j]? = some cj)
    (hki : ci.idempotencyKey = k) (hkj : cj.idempotencyKey = k)
    (hchg : stateAfter db calls (i + 1) ≠ stateAfter db calls i) :
    stateAfter db calls (j + 1) = stateAfter db calls j := by
  rw [stateAfter_succ db calls j cj hj]
  rw [stateAfter_succ db calls i ci hi] at hchg
  obtain ⟨t, ht, htk⟩ := service.Transfer_changed_has_key _ _ _ _ _ _ _ _ hchg
  have ht' : t ∈ (stateAfter db calls (i + 1)).transactions := by
    rw [stateAfter_succ db calls i ci hi]; exact ht
  have htj := stateAfter_ledger_mono db calls t (i + 1) ht' j hij
  unfold TransferCall.run
  apply service.Transfer_unchanged_of_key_present
  exact ⟨t, htj, by rw [htk, hki, hkj]⟩

/-- Witness for C5: after a transfer with key `k1`, the first empty-key transfer commits
and its retry leaves the database as it found it. -/
theorem at_most_one_commit_per_key_witness :
    stateAfter db0 retryCalls (2 + 1) = stateAfter db0 retryCalls 2 :=
  at_most_one_commit_per_key db0 retryCalls "" 1 2
    ⟨1, "recipient@example.com", 50, "second", "", 7, 8⟩
    ⟨1, "recipient@example.com", 50, "second", "", 9, 10⟩
    (by decide) (by rfl) (by rfl) (by rfl) (by rfl) (by decide!)

/-- C6: every `Transfer` call that commits (returns success without being a replay of a key
already in the ledger) appends exactly two rows to the ledger and changes no existing row:
a debit on the sender's wallet naming the recipient and a credit on the recipient's wallet
naming the sender, both with the transferred amount and the given note. -/
theorem committed_transfer_appends_two_rows (db : gorm.DB) (senderID : Nat)
    (recipientEmail : String) (amount : ℚ) (notes key : String) (tDebit tCredit : Nat)
    (hok : (walletService.Transfer db senderID recipientEmail amount notes key
              tDebit tCredit).1 = none)
    (hfresh : key = "" ∨ ∀ t ∈ db.transactions, t.IdempotencyKey ≠ key) :
    ∃ sender recipient sw rw d c,
      userRepository.FindByID db senderID = .ok sender ∧
      userRepository.FindByEmail db recipientEmail = .ok recipient ∧
      walletRepository.FindByUserID db sender.ID = .ok sw ∧
      walletRepository.FindByUserID db recipient.ID = .ok rw ∧
      (walletService.Transfer db senderID recipientEmail amount notes key
          tDebit tCredit).2.transactions = db.transactions ++ [d, c] ∧
      d.Type_ = .TransactionTypeDebit ∧ d.WalletID = sw.ID ∧ d.Amount = amount ∧
      d.Notes = notes ∧ d.RelatedUserID = some recipient.ID ∧
      c.Type_ = .TransactionTypeCredit ∧ c.WalletID = rw.ID ∧ c.Amount = amount ∧
      c.Notes = notes ∧ c.RelatedUserID = some sender.ID := by
  rcases service.Transfer_cases db senderID recipientEmail amount notes key tDebit tCredit with
    ⟨⟨hk, t, ht, htk⟩, _⟩ | ⟨e, h⟩ | ⟨sender, recipient, sw, rw, hs, hr, _, hsw, hrw, _, _, _, h⟩
  · rcases hfresh with h | h
    · exact absurd h hk
    · exact absurd htk (h t ht)
  · rw [h] at hok; simp at hok
  · rw [h]
    refine ⟨sender, recipient, sw, rw,
      walletService.Transfer.debitRow db recipient sw amount notes key tDebit,
      walletService.Transfer.creditRow db sender recipient sw rw amount notes key tDebit tCredit,
      hs, hr, hsw, hrw, ?_, rfl, rfl, rfl, rfl, rfl, rfl, rfl, rfl, rfl, rfl⟩
    simp [walletService.Transfer.committed]

/-- Witness for C6: the ledger written by the successful transfer of the repository's test. -/
theorem committed_transfer_appends_two_rows_witness :
    ∃ (sender recipient : models.User) (sw rw : models.Wallet) (d c : models.Transaction),
      userRepository.FindByID db0 1 = .ok sender ∧
      userRepository.FindByEmail db0 "recipient@example.com" = .ok recipient ∧
      walletRepository.FindByUserID db0 sender.ID = .ok sw ∧
      walletRepository.FindByUserID db0 recipient.ID = .ok rw ∧
      (walletService.Transfer db0 1 "recipient@example.com" 200 "Test payment" "test-key-1"
          5 6).2.transactions = db0.transactions ++ [d, c] ∧
      d.Type_ = .TransactionTypeDebit ∧ d.WalletID = sw.ID ∧ d.Amount = 200 ∧
      d.Notes = "Test payment" ∧ d.RelatedUserID = some recipient.ID ∧
      c.Type_ = .TransactionTypeCredit ∧ c.WalletID = rw.ID ∧ c.Amount = 200 ∧
      c.Notes = "Test payment" ∧ c.RelatedUserID = some sender.ID :=
  committed_transfer_appends_two_rows db0 1 "recipient@example.com" 200 "Test payment"
    "test-key-1" 5 6 (by decide) (Or.inr (by decide))

/-- Counterexample to C7 as stated: the keys `a` and `a-credit` are distinct, yet the credit
token of the first is the debit token of the second.  After one transfer with key `a`, a
valid transfer with the never-used key `a-credit` is skipped as a duplicate (while the same
transfer with key `b` commits); after one transfer with key `a-credit`, a valid transfer
with the never-used key `a` is rejected by the unique index. -/
theorem credit_suffix_collision :
    "a" ≠ "a-credit" ∧ "a" ++ "-credit" = "a-credit" ∧
    dbAfterA.transactions.map models.Transaction.IdempotencyKey = ["a", "a-credit"] ∧
    walletService.Transfer dbAfterA 1 "recipient@example.com" 50 "second" "a-credit" 7 8 =
      (none, dbAfterA) ∧
    (walletService.Transfer dbAfterA 1 "recipient@example.com" 50 "second" "b" 7 8).1 = none ∧
    (walletService.Transfer dbAfterA 1 "recipient@example.com" 50 "second" "b" 7 8).2
      ≠ dbAfterA ∧
    dbAfterACredit.transactions.map models.Transaction.IdempotencyKey =
      ["a-credit", "a-credit-credit"] ∧
    walletService.Transfer dbAfterACredit 1 "recipient@example.com" 50 "second" "a" 7 8 =
      (some (.Errorf "error creating credit transaction" .ErrDuplicatedKey), dbAfterACredit) := by
  decide!

/-- C7 (amended): when every token in the ledger stems from an earlier key `k'` (it is `k'`
or `k' ++ "-credit"`) and the new key `key` differs from each earlier key, is not an earlier
key followed by `-credit`, and no earlier key is `key` followed by `-credit`, then the four
tokens of `key` and any earlier key are pairwise distinct, and an otherwise valid `Transfer`
with `key` is neither skipped nor rejected: it returns success and appends its two tokens
`key` and `key ++ "-credit"` to the ledger. -/
theorem transfer_not_blocked_by_unrelated_keys (db : gorm.DB) (sender recipient : models.User)
    (sw rw : models.Wallet) (senderID : Nat) (recipientEmail : String) (amount : ℚ)
    (notes key : String) (tDebit tCredit : Nat) (earlier : List String)
    (hledger : ∀ t ∈ db.transactions, ∃ k' ∈ earlier,
      t.IdempotencyKey = k' ∨ t.IdempotencyKey = k' ++ "-credit")
    (hother : ∀ k' ∈ earlier, k' ≠ key ∧ k' ≠ key ++ "-credit" ∧ key ≠ k' ++ "-credit")
    (hs : userRepository.FindByID db senderID = .ok sender)
    (hr : userRepository.FindByEmail db recipientEmail = .ok recipient)
    (hne : sender.ID ≠ recipient.ID)
    (hsw : walletRepository.FindByUserID db sender.ID = .ok sw)
    (hrw : walletRepository.FindByUserID db recipient.ID = .ok rw)
    (hpos : 0 < amount) (hbal : amount ≤ sw.Balance) :
    (∀ k' ∈ earlier, [k', k' ++ "-credit", key, key ++ "-credit"].Nodup) ∧
    (walletService.Transfer db senderID recipientEmail amount notes key tDebit tCredit).1 = none ∧
    (walletService.Transfer db senderID recipientEmail amount notes key
        tDebit tCredit).2.transactions.map models.Transaction.IdempotencyKey =
      db.transactions.map models.Transaction.IdempotencyKey ++ [key, key ++ "-credit"] := by
  have hkey : ∀ t ∈ db.transactions,
      t.IdempotencyKey ≠ key ∧ t.IdempotencyKey ≠ key ++ "-credit" := by
    intro t ht
    obtain ⟨k', hk', h⟩ := hledger t ht
    obtain ⟨h1, h2, h3⟩ := hother k' hk'
    rcases h with h | h
    · rw [h]; exact ⟨h1, h2⟩
    · rw [h]; exact ⟨Ne.symm h3, fun e => h1 (service.append_credit_injective e)⟩
  refine ⟨?_, ?_⟩
  · intro k' hk'
    obtain ⟨h1, h2, h3⟩ := hother k' hk'
    have h4 : k' ++ "-credit" ≠ key ++ "-credit" :=
      fun e => h1 (service.append_credit_injective e)
    simp only [List.nodup_cons, List.mem_cons, List.mem_singleton, List.not_mem_nil,
      not_or, not_false_eq_true, List.nodup_nil, and_true]
    exact ⟨⟨service.append_credit_ne k', h1, h2⟩, ⟨Ne.symm h3, h4⟩, service.append_credit_ne key⟩
  · rw [service.Transfer_commit db sender recipient sw rw senderID recipientEmail amount notes
          key tDebit tCredit hs hr hne hsw hrw hpos hbal hkey]
    refine ⟨rfl, ?_⟩
    simp [walletService.Transfer.committed, walletService.Transfer.debitRow,
      walletService.Transfer.creditRow]

/-- Witness for C7 (amended): after the transfer with key `a`, a transfer with key `b`
commits and the ledger tokens become `a`, `a-credit`, `b`, `b-credit`. -/
theorem transfer_not_blocked_by_unrelated_keys_witness :
    (walletService.Transfer dbAfterA 1 "recipient@example.com" 50 "second" "b" 7 8).1 = none ∧
    (walletService.Transfer dbAfterA 1 "recipient@example.com" 50 "second" "b"
        7 8).2.transactions.map models.Transaction.IdempotencyKey =
      dbAfterA.transactions.map models.Transaction.IdempotencyKey ++ ["b", "b" ++ "-credit"] :=
  (transfer_not_blocked_by_unrelated_keys dbAfterA ⟨1, "sender@example.com", "hashedpassword"⟩
    ⟨2, "recipient@example.com", "hashedpassword"⟩ ⟨1, 1, 800⟩ ⟨2, 2, 1200⟩
    1 "recipient@example.com" 50 "second" "b" 7 8 ["a"]
    (by decide!) (by decide) (by decide!) (by decide!) (by decide) (by decide!) (by decide!)
    (by decide) (by decide!)).2

/-- C8: for two distinct existing users with wallets, every amount `> 0` strictly greater
than the sender's balance and every idempotency key not in the ledger, `Transfer` returns
`ErrInsufficientBalance` and the database (both balances and the ledger) is unchanged. -/
theorem transfer_insufficient_balance (db : gorm.DB) (sender recipient : models.User)
    (sw rw : models.Wallet) (senderID : Nat) (recipientEmail : String) (amount : ℚ)
    (notes key : String) (tDebit tCredit : Nat)
    (hs : userRepository.FindByID db senderID = .ok sender)
    (hr : userRepository.FindByEmail db recipientEmail = .ok recipient)
    (hne : sender.ID ≠ recipient.ID)
    (hsw : walletRepository.FindByUserID db sender.ID = .ok sw)
    (hrw : walletRepository.FindByUserID db recipient.ID = .ok rw)
    (hpos : 0 < amount) (hlt : sw.Balance < amount)
    (hkey : ∀ t ∈ db.transactions, t.IdempotencyKey ≠ key) :
    walletService.Transfer db senderID recipientEmail amount notes key tDebit tCredit =
      (some .ErrInsufficientBalance, db) :=
  service.Transfer_insufficient db sender recipient sw rw senderID recipientEmail amount notes
    key tDebit tCredit hs hr hne hsw hrw hpos hlt hkey

/-- Witness for C8: the insufficient-balance test of the repository (10000 out of 1000). -/
theorem transfer_insufficient_balance_witness :
    walletService.Transfer db0 1 "recipient@example.com" 10000 "Too much" "test-key-2" 5 6 =
      (some .ErrInsufficientBalance, db0) :=
  transfer_insufficient_balance db0 ⟨1, "sender@example.com", "hashedpassword"⟩
    ⟨2, "recipient@example.com", "hashedpassword"⟩ ⟨1, 1, 1000⟩ ⟨2, 2, 1000⟩
    1 "recipient@example.com" 10000 "Too much" "test-key-2" 5 6
    (by decide) (by decide) (by decide) (by decide) (by decide) (by decide) (by decide)
    (by decide)

/-- C9: for every existing sender, every amount `> 0`, every idempotency key not in the
ledger and every recipient email that resolves to a user record with the sender's identity,
`Transfer` returns `ErrSelfTransfer`, whatever the sender's balance, and the database is
unchanged. -/
theorem transfer_self_rejected (db : gorm.DB) (sender recipient : models.User)
    (senderID : Nat) (recipientEmail : String) (amount : ℚ)
    (notes key : String) (tDebit tCredit : Nat)
    (hs : userRepository.FindByID db senderID = .ok sender)
    (hr : userRepository.FindByEmail db recipientEmail = .ok recipient)
    (hsame : recipient.ID = sender.ID)
    (hpos : 0 < amount)
    (hkey : ∀ t ∈ db.transactions, t.IdempotencyKey ≠ key) :
    walletService.Transfer db senderID recipientEmail amount notes key tDebit tCredit =
      (some .ErrSelfTransfer, db) :=
  service.Transfer_self db sender recipient senderID recipientEmail amount notes key
    tDebit tCredit hs hr hsame hpos hkey

/-- Witness for C9: the self-transfer test of the repository, with an amount above the
balance. -/
theorem transfer_self_rejected_witness :
    walletService.Transfer db0 1 "sender@example.com" 5000 "To myself" "test-key-4" 5 6 =
      (some .ErrSelfTransfer, db0) :=
  transfer_self_rejected db0 ⟨1, "sender@example.com", "hashedpassword"⟩
    ⟨1, "sender@example.com", "hashedpassword"⟩
    1 "sender@example.com" 5000 "To myself" "test-key-4" 5 6
    (by decide) (by decide) (by decide) (by decide) (by decide)

/-- Counterexample to C10 as stated: after one transfer with key `a-credit`, the key `a` is
not in the ledger and no check of a transfer of 50 with key `a` fails (the amount is
positive, sender and recipient exist and differ, the balance 800 covers it), yet the call
does not succeed: the credit insert is rejected by the unique index. -/
theorem success_needs_free_credit_token :
    (∀ t ∈ dbAfterACredit.transactions, t.IdempotencyKey ≠ "a") ∧
    ¬ ((50 : ℚ) ≤ 0) ∧
    userRepository.FindByID dbAfterACredit 1 = .ok ⟨1, "sender@example.com", "hashedpassword"⟩ ∧
    userRepository.FindByEmail dbAfterACredit "recipient@example.com" =
      .ok ⟨2, "recipient@example.com", "hashedpassword"⟩ ∧
    (1 : Nat) ≠ 2 ∧
    walletRepository.FindByUserID dbAfterACredit 1 = .ok ⟨1, 1, 800⟩ ∧
    ¬ ((800 : ℚ) < 50) ∧
    (walletService.Transfer dbAfterACredit 1 "recipient@example.com" 50 "second" "a" 7 8).1 =
      some (.Errorf "error creating credit transaction" .ErrDuplicatedKey) := by
  decide!

/-- C10 (amended): in a store where every user owns a wallet, for every `Transfer` call
whose two tokens (`key` and `key ++ "-credit"`) are not in the ledger, the returned error is
that of the first failing check in the fixed order: `amount ≤ 0` gives `ErrInvalidAmount`
(whatever the other arguments); otherwise an unknown sender gives a wrapped lookup error
that is none of the four domain errors; otherwise an unknown recipient email gives
`ErrRecipientNotFound`; otherwise sender = recipient gives `ErrSelfTransfer`; otherwise
balance `<` amount gives `ErrInsufficientBalance`; and the call succeeds exactly when no
check fails. -/
theorem transfer_validation_order (db : gorm.DB) (senderID : Nat) (recipientEmail : String)
    (amount : ℚ) (notes key : String) (tDebit tCredit : Nat)
    (hwallet : ∀ u ∈ db.users, ∃ w ∈ db.wallets, w.UserID = u.ID)
    (hkey : ∀ t ∈ db.transactions,
      t.IdempotencyKey ≠ key ∧ t.IdempotencyKey ≠ key ++ "-credit") :
    (amount ≤ 0 →
      (walletService.Transfer db senderID recipientEmail amount notes key tDebit tCredit).1 =
        some .ErrInvalidAmount) ∧
    (0 < amount → ∀ err, userRepository.FindByID db senderID = .error err →
      ∃ e, (walletService.Transfer db senderID recipientEmail amount notes key
              tDebit tCredit).1 = some e ∧
        errors.Is e .ErrInvalidAmount = false ∧ errors.Is e .ErrRecipientNotFound = false ∧
        errors.Is e .ErrSelfTransfer = false ∧ errors.Is e .ErrInsufficientBalance = false) ∧
    (0 < amount → ∀ sender err, userRepository.FindByID db senderID = .ok sender →
      userRepository.FindByEmail db recipientEmail = .error err →
      (walletService.Transfer db senderID recipientEmail amount notes key tDebit tCredit).1 =
        some .ErrRecipientNotFound) ∧
    (0 < amount → ∀ sender recipient, userRepository.FindByID db senderID = .ok sender →
      userRepository.FindByEmail db recipientEmail = .ok recipient →
      sender.ID = recipient.ID →
      (walletService.Transfer db senderID recipientEmail amount notes key tDebit tCredit).1 =
        some .ErrSelfTransfer) ∧
    (0 < amount → ∀ sender recipient sw, userRepository.FindByID db senderID = .ok sender →
      userRepository.FindByEmail db recipientEmail = .ok recipient →
      sender.ID ≠ recipient.ID →
      walletRepository.FindByUserID db sender.ID = .ok sw → sw.Balance < amount →
      (walletService.Transfer db senderID recipientEmail amount notes key tDebit tCredit).1 =
        some .ErrInsufficientBalance) ∧
    ((walletService.Transfer db senderID recipientEmail amount notes key tDebit tCredit).1 =
        none ↔
      0 < amount ∧ ∃ sender recipient sw,
        userRepository.FindByID db senderID = .ok sender ∧
        userRepository.FindByEmail db recipientEmail = .ok recipient ∧
        sender.ID ≠ recipient.ID ∧
        walletRepository.FindByUserID db sender.ID = .ok sw ∧ amount ≤ sw.Balance) := by
  have hnodup : ¬ (key ≠ "" ∧ ∃ t ∈ db.transactions, t.IdempotencyKey = key) := by
    rintro ⟨_, t, ht, hk⟩
    exact (hkey t ht).1 hk
  have hkey1 : ∀ t ∈ db.transactions, t.IdempotencyKey ≠ key := fun t ht => (hkey t ht).1
  refine ⟨?_, ?_, ?_, ?_, ?_, ?_⟩
  · intro ha
    rw [service.Transfer_eq, if_neg hnodup, if_pos ha]
  · intro hpos err hs
    refine ⟨.Errorf "error finding sender" .ErrRecordNotFound, ?_, by decide, by decide,
      by decide, by decide⟩
    rw [service.Transfer_eq, if_neg hnodup, if_neg (not_le.2 hpos)]
    simp only [hs]
  · intro hpos sender err hs hr
    rw [service.Transfer_eq, if_neg hnodup, if_neg (not_le.2 hpos)]
    simp only [hs, hr]
  · intro hpos sender recipient hs hr hsame
    rw [service.Transfer_self db sender recipient senderID recipientEmail amount notes key
      tDebit tCredit hs hr hsame.symm hpos hkey1]
  · intro hpos sender recipient sw hs hr hne hsw hlt
    obtain ⟨rw, hrw⟩ := service.FindByUserID_owner hwallet (gorm.First_ok hr).1
    rw [service.Transfer_insufficient db sender recipient sw rw senderID recipientEmail amount
      notes key tDebit tCredit hs hr hne hsw hrw hpos hlt hkey1]
  · constructor
    · intro hok
      rcases service.Transfer_cases db senderID recipientEmail amount notes key tDebit tCredit
        with ⟨hd, _⟩ | ⟨e, h⟩ | ⟨sender, recipient, sw, rw, hs, hr, hne, hsw, _, hpos, hbal, _, _⟩
      · exact absurd hd hnodup
      · rw [h] at hok; simp at hok
      · exact ⟨hpos, sender, recipient, sw, hs, hr, hne, hsw, hbal⟩
    · rintro ⟨hpos, sender, recipient, sw, hs, hr, hne, hsw, hbal⟩
      obtain ⟨rw, hrw⟩ := service.FindByUserID_owner hwallet (gorm.First_ok hr).1
      rw [service.Transfer_commit db sender recipient sw rw senderID recipientEmail amount notes
        key tDebit tCredit hs hr hne hsw hrw hpos hbal hkey]

/-- Witness for C10 (amended): on the test fixture a negative amount is rejected with
`ErrInvalidAmount` although the recipient does not exist. -/
theorem transfer_validation_order_witness :
    (walletService.Transfer db0 1 "nonexistent@example.com" (-50) "Negative" "test-key-5"
      5 6).1 = some .ErrInvalidAmount :=
  (transfer_validation_order db0 1 "nonexistent@example.com" (-50) "Negative" "test-key-5" 5 6
    (by decide) (by decide)).1 (by decide)

/-- C11: `Transfer` is atomic on failure: whenever a call returns an error, the database
(every wallet balance and the ledger) is exactly as before the call, also when the failing
step is an insert issued inside the unit of work after both balance updates. -/
theorem transfer_failure_is_atomic (db : gorm.DB) (senderID : Nat) (recipientEmail : String)
    (amount : ℚ) (notes key : String) (tDebit tCredit : Nat) (e : GoError)
    (herr : (walletService.Transfer db senderID recipientEmail amount notes key
              tDebit tCredit).1 = some e) :
    (walletService.Transfer db senderID recipientEmail amount notes key tDebit tCredit).2
      = db := by
  rcases service.Transfer_cases db senderID recipientEmail amount notes key tDebit tCredit with
    ⟨_, h⟩ | ⟨e', h⟩ | ⟨sender, recipient, sw, rw, _, _, _, _, _, _, _, _, h⟩
  · rw [h]
  · rw [h]
  · rw [h] at herr
    simp at herr

/-- Witness for C11: the credit insert of a transfer with key `a` is rejected by the unique
index after the debit insert and both balance updates were issued in the unit of work; the
database is as before the call. -/
theorem transfer_failure_is_atomic_witness :
    (walletService.Transfer dbAfterACredit 1 "recipient@example.com" 50 "second" "a" 7 8).1 =
      some (.Errorf "error creating credit transaction" .ErrDuplicatedKey) ∧
    (walletService.Transfer dbAfterACredit 1 "recipient@example.com" 50 "second" "a" 7 8).2
      = dbAfterACredit :=
  ⟨by decide!,
   transfer_failure_is_atomic dbAfterACredit 1 "recipient@example.com" 50 "second" "a" 7 8
     (.Errorf "error creating credit transaction" .ErrDuplicatedKey) (by decide!)⟩

namespace service

/-- A validated transfer whose key passed the replay test but one of whose tokens is already
in the ledger fails on the unique index with a wrapped storage error, and is rolled back. -/
theorem Transfer_unique_violation (db : gorm.DB) (sender recipient : models.User)
    (sw rw : models.Wallet) (senderID : Nat) (recipientEmail : String) (amount : ℚ)
    (notes key : String) (tDebit tCredit : Nat)
    (hs : userRepository.FindByID db senderID = .ok sender)
    (hr : userRepository.FindByEmail db recipientEmail = .ok recipient)
    (hne : sender.ID ≠ recipient.ID)
    (hsw : walletRepository.FindByUserID db sender.ID = .ok sw)
    (hrw : walletRepository.FindByUserID db recipient.ID = .ok rw)
    (hpos : 0 < amount) (hbal : amount ≤ sw.Balance)
    (hpass : key = "" ∨ ∀ t ∈ db.transactions, t.IdempotencyKey ≠ key)
    (htaken : ∃ t ∈ db.transactions,
      t.IdempotencyKey = key ∨ t.IdempotencyKey = key ++ "-credit") :
    ∃ msg, (msg = "error creating debit transaction" ∨ msg = "error creating credit transaction") ∧
      walletService.Transfer db senderID recipientEmail amount notes key tDebit tCredit =
        (some (.Errorf msg .ErrDuplicatedKey), db) := by
  have hnr : ¬ (key ≠ "" ∧ ∃ t ∈ db.transactions, t.IdempotencyKey = key) := by
    rintro ⟨hk, t, ht, htk⟩
    rcases hpass with h | h
    · exact hk h
    · exact h t ht htk
  rw [Transfer_eq, if_neg hnr, if_neg (not_le.2 hpos)]
  simp only [hs, hr, hne, if_false, gorm.DB.Transaction]
  rw [func1_eq db sender recipient sw rw amount notes key tDebit tCredit hsw hrw,
    if_neg (not_lt.2 hbal)]
  by_cases hd : ∃ t ∈ db.transactions, t.IdempotencyKey = key
  · exact ⟨_, Or.inl rfl, by rw [if_pos hd]⟩
  · have hc : ∃ t ∈ db.transactions, t.IdempotencyKey = key ++ "-credit" := by
      obtain ⟨t, ht, h | h⟩ := htaken
      · exact absurd ⟨t, ht, h⟩ hd
      · exact ⟨t, ht, h⟩
    exact ⟨_, Or.inr rfl, by rw [if_neg hd, if_pos hc]⟩

/-- A wrapped unique-index violation is none of the four domain errors of `Transfer`. -/
theorem Is_wrapped_duplicate (msg : String) :
    errors.Is (.Errorf msg .ErrDuplicatedKey) .ErrInsufficientBalance = false ∧
    errors.Is (.Errorf msg .ErrDuplicatedKey) .ErrRecipientNotFound = false ∧
    errors.Is (.Errorf msg .ErrDuplicatedKey) .ErrInvalidAmount = false ∧
    errors.Is (.Errorf msg .ErrDuplicatedKey) .ErrSelfTransfer = false := by
  simp [errors.Is]

end service

/-- Counterexample to C12 as stated: after one transfer with key `a-credit`, a transfer
with the header key `a` passes the initial lookup, its credit token `a-credit` is rejected
by the unique index at insert time, `Transfer` returns an error and the handler answers
500, not a success. -/
theorem unique_violation_answers_500 :
    (∀ t ∈ dbAfterACredit.transactions, t.IdempotencyKey ≠ "a") ∧
    (∃ t ∈ dbAfterACredit.transactions, t.IdempotencyKey = "a" ++ "-credit") ∧
    (walletService.Transfer dbAfterACredit 1 "recipient@example.com" 50 "second" "a" 7 8).1 =
      some (.Errorf "error creating credit transaction" .ErrDuplicatedKey) ∧
    (handlers.WalletHandler.Transfer dbAfterACredit (some 1)
      (some ⟨"recipient@example.com", 50, "second"⟩) "a" "generated" 7 8).1 =
      http.StatusInternalServerError := by
  decide!

/-- C12 (amended): when a ledger insert of an otherwise valid `Transfer` is rejected by the
unique index on the idempotency token (the key passed the initial lookup, or was empty, but
one of its two tokens is already in the ledger), `Transfer` returns the storage error
wrapped as "error creating debit transaction" or "error creating credit transaction", the
`POST /wallet/transfer` handler answers HTTP 500, and the database is unchanged. -/
theorem unique_violation_is_internal_error (db : gorm.DB) (sender recipient : models.User)
    (sw rw : models.Wallet) (senderID : Nat) (req : handlers.TransferRequest)
    (idempotencyKeyHeader uuid key : String) (tDebit tCredit : Nat)
    (hkeydef : key = if idempotencyKeyHeader = "" then uuid else idempotencyKeyHeader)
    (hs : userRepository.FindByID db senderID = .ok sender)
    (hr : userRepository.FindByEmail db req.Recipient = .ok recipient)
    (hne : sender.ID ≠ recipient.ID)
    (hsw : walletRepository.FindByUserID db sender.ID = .ok sw)
    (hrw : walletRepository.FindByUserID db recipient.ID = .ok rw)
    (hpos : 0 < req.Amount) (hbal : req.Amount ≤ sw.Balance)
    (hpass : key = "" ∨ ∀ t ∈ db.transactions, t.IdempotencyKey ≠ key)
    (htaken : ∃ t ∈ db.transactions,
      t.IdempotencyKey = key ∨ t.IdempotencyKey = key ++ "-credit") :
    (∃ msg, (msg = "error creating debit transaction" ∨
              msg = "error creating credit transaction") ∧
      walletService.Transfer db senderID req.Recipient req.Amount req.Notes key tDebit tCredit =
        (some (.Errorf msg .ErrDuplicatedKey), db)) ∧
    handlers.WalletHandler.Transfer db (some senderID) (some req) idempotencyKeyHeader uuid
      tDebit tCredit = (http.StatusInternalServerError, db) := by
  obtain ⟨msg, hmsg, h⟩ := service.Transfer_unique_violation db sender recipient sw rw senderID
    req.Recipient req.Amount req.Notes key tDebit tCredit hs hr hne hsw hrw hpos hbal hpass htaken
  refine ⟨⟨msg, hmsg, h⟩, ?_⟩
  unfold handlers.WalletHandler.Transfer
  obtain ⟨h1, h2, h3, h4⟩ := service.Is_wrapped_duplicate msg
  simp only [← hkeydef, h, h1, h2, h3, h4, Bool.false_eq_true, if_false]

/-- Witness for C12 (amended): the header key `a` after a transfer with key `a-credit`. -/
theorem unique_violation_is_internal_error_witness :
    handlers.WalletHandler.Transfer dbAfterACredit (some 1)
      (some ⟨"recipient@example.com", 50, "second"⟩) "a" "generated" 7 8 =
      (http.StatusInternalServerError, dbAfterACredit) :=
  (unique_violation_is_internal_error dbAfterACredit ⟨1, "sender@example.com", "hashedpassword"⟩
    ⟨2, "recipient@example.com", "hashedpassword"⟩ ⟨1, 1, 800⟩ ⟨2, 2, 1200⟩ 1
    ⟨"recipient@example.com", 50, "second"⟩ "a" "generated" "a" 7 8
    (by decide) (by decide!) (by decide!) (by decide) (by decide!) (by decide!) (by decide)
    (by decide) (Or.inr (by decide!)) (by decide!)).2

/-! ## The session gate -/

namespace strings

theorem splitChars_ne_nil (sep : Char) (l : List Char) : splitChars sep l ≠ [] := by
  cases l with
  | nil => simp [splitChars]
  | cons c cs =>
    simp only [splitChars]
    split
    · simp
    · split <;> simp

theorem splitChars_eq_singleton (sep : Char) :
    ∀ (l a : List Char), splitChars sep l = [a] ↔ (l = a ∧ sep ∉ a) := by
  intro l
  induction l with
  | nil =>
    intro a
    simp only [splitChars, List.cons.injEq, and_true]
    constructor
    · intro h; subst h; simp
    · intro h; exact h.1
  | cons c cs ih =>
    intro a
    simp only [splitChars]
    by_cases hc : c = sep
    · simp only [hc, if_true, List.cons.injEq]
      constructor
      · intro h; exact absurd h.2 (splitChars_ne_nil sep cs)
      · rintro ⟨h, hn⟩
        subst h
        exact absurd (List.mem_cons_self _ _) hn
    · simp only [hc, if_false]
      cases hsp : splitChars sep cs with
      | nil => exact absurd hsp (splitChars_ne_nil sep cs)
      | cons p ps =>
        simp only [List.cons.injEq]
        constructor
        · rintro ⟨h1, h2⟩
          subst h1 h2
          have := (ih p).1 hsp
          refine ⟨by rw [this.1], ?_⟩
          simp only [List.mem_cons, not_or]
          exact ⟨fun h => hc h.symm, this.2⟩
        · rintro ⟨h, hn⟩
          subst h
          simp only [List.mem_cons, not_or] at hn
          have := (ih cs).2 ⟨rfl, hn.2⟩
          rw [hsp] at this
          simp only [List.cons.injEq] at this
          exact ⟨by rw [this.1], this.2⟩

theorem splitChars_eq_pair (sep : Char) :
    ∀ (l a b : List Char),
      splitChars sep l = [a, b] ↔ (l = a ++ sep :: b ∧ sep ∉ a ∧ sep ∉ b) := by
  intro l
  induction l with
  | nil =>
    intro a b
    simp [splitChars]
  | cons c cs ih =>
    intro a b
    simp only [splitChars]
    by_cases hc : c = sep
    · subst hc
      simp only [if_true, List.cons.injEq]
      rw [splitChars_eq_singleton]
      constructor
      · rintro ⟨h1, h2, h3⟩
        subst h1 h2
        exact ⟨rfl, List.not_mem_nil _, h3⟩
      · rintro ⟨h1, h2, h3⟩
        cases a with
        | nil =>
          simp only [List.nil_append, List.cons.injEq, true_and] at h1
          exact ⟨rfl, h1, h3⟩
        | cons x xs =>
          simp only [List.cons_append, List.cons.injEq] at h1
          exact absurd (h1.1 ▸ List.mem_cons_self _ _) h2
    · simp only [hc, if_false]
      cases hsp : splitChars sep cs with
      | nil => exact absurd hsp (splitChars_ne_nil sep cs)
      | cons p ps =>
        simp only [List.cons.injEq]
        constructor
        · rintro ⟨h1, h2⟩
          subst h1 h2
          have := (ih p b).1 hsp
          refine ⟨by rw [this.1]; rfl, ?_, this.2.2⟩
          simp only [List.mem_cons, not_or]
          exact ⟨fun h => hc h.symm, this.2.1⟩
        · rintro ⟨h1, h2, h3⟩
          cases a with
          | nil =>
            simp only [List.nil_append, List.cons.injEq] at h1
            exact absurd h1.1 hc
          | cons x xs =>
            simp only [List.cons_append, List.cons.injEq] at h1
            simp only [List.mem_cons, not_or] at h2
            have := (ih xs b).2 ⟨h1.2, h2.2, h3⟩
            rw [hsp] at this
            simp only [List.cons.injEq] at this
            exact ⟨by rw [h1.1, this.1], this.2⟩

/-- A header splits into exactly `Bearer` and a token precisely when it is `Bearer`, one
space and a token without spaces. -/
theorem Split_eq_bearer (authHeader token : String) :
    Split authHeader ' ' = ["Bearer", token] ↔
      (authHeader = "Bearer " ++ token ∧ ' ' ∉ token.data) := by
  unfold Split
  have hmk : ∀ l : List (List Char),
      l.map String.mk = ["Bearer", token] ↔ l = ["Bearer".data, token.data] := by
    intro l
    constructor
    · intro h
      have h2 := congrArg (List.map String.data) h
      rw [List.map_map] at h2
      have hid : (String.data ∘ String.mk) = id := rfl
      rw [hid, List.map_id] at h2
      exact h2
    · intro h
      subst h
      rfl
  rw [hmk, splitChars_eq_pair]
  constructor
  · rintro ⟨h1, _, h3⟩
    refine ⟨String.ext ?_, h3⟩
    rw [h1, String.data_append]
    rfl
  · rintro ⟨h1, h3⟩
    refine ⟨?_, by decide, h3⟩
    rw [h1, String.data_append]
    rfl

end strings

namespace middleware

/-- A request whose header splits into `Bearer` and a token, whose token is valid and whose
session record exists is passed on, and the record is rewritten. -/
theorem RequireAuth_admit (V : String → Except GoError customjwt.Claims) (store : redis.Client)
    (T : Int) (authHeader token : String) (claims : customjwt.Claims) (e : redis.Entry)
    (hsplit : strings.Split authHeader ' ' = ["Bearer", token])
    (hv : V token = .ok claims)
    (hf : store.find? (fun e => e.key == "session:" ++ token) = some e) :
    AuthMiddleware.RequireAuth V store T authHeader =
      (.next claims.UserID claims.Email,
        ⟨"session:" ++ token, e.value, T⟩ ::
          store.filter (fun e => e.key != "session:" ++ token)) := by
  have hne : authHeader ≠ "" := by
    intro h
    have h0 : strings.Split "" ' ' = [""] := by decide
    rw [h, h0] at hsplit
    simp at hsplit
  unfold AuthMiddleware.RequireAuth
  simp only [hne, if_false, hsplit, List.length_cons, List.length_nil, List.getD_cons_zero,
    List.getD_cons_succ, ne_eq, not_true_eq_false, or_self, hv, redis.Client.Get, hf,
    redis.Client.Set, Nat.reduceAdd]

/-- Every request is either admitted as in `RequireAuth_admit` or answered with 401 and the
session store untouched. -/
theorem RequireAuth_cases (V : String → Except GoError customjwt.Claims) (store : redis.Client)
    (T : Int) (authHeader : String) :
    (∃ token claims e, strings.Split authHeader ' ' = ["Bearer", token] ∧ V token = .ok claims ∧
      store.find? (fun e => e.key == "session:" ++ token) = some e ∧
      AuthMiddleware.RequireAuth V store T authHeader =
        (.next claims.UserID claims.Email,
          ⟨"session:" ++ token, e.value, T⟩ ::
            store.filter (fun e => e.key != "session:" ++ token))) ∨
    ((∃ msg, AuthMiddleware.RequireAuth V store T authHeader =
        (.abort http.StatusUnauthorized msg, store)) ∧
      ∀ token, strings.Split authHeader ' ' = ["Bearer", token] →
        (∃ err, V token = .error err) ∨
        ((∃ claims, V token = .ok claims) ∧
          store.find? (fun e => e.key == "session:" ++ token) = none ∧
          AuthMiddleware.RequireAuth V store T authHeader =
            (.abort http.StatusUnauthorized "session expired due to inactivity", store))) := by
  by_cases hempty : authHeader = ""
  · right
    refine ⟨⟨"authorization header required",
      by simp [AuthMiddleware.RequireAuth, hempty]⟩, ?_⟩
    intro token hsplit
    have h0 : strings.Split "" ' ' = [""] := by decide
    rw [hempty, h0] at hsplit
    simp at hsplit
  by_cases hform : (strings.Split authHeader ' ').length ≠ 2 ∨
      (strings.Split authHeader ' ').getD 0 "" ≠ "Bearer"
  · right
    refine ⟨⟨"invalid authorization header format",
      by simp only [AuthMiddleware.RequireAuth, hempty, if_false, hform, if_true]⟩, ?_⟩
    intro token hsplit
    rw [hsplit] at hform
    simp at hform
  have hlen : (strings.Split authHeader ' ').length = 2 := by
    by_contra h; exact hform (Or.inl h)
  have hhead : (strings.Split authHeader ' ').getD 0 "" = "Bearer" := by
    by_contra h; exact hform (Or.inr h)
  obtain ⟨p0, token, hsplit⟩ : ∃ p0 token, strings.Split authHeader ' ' = [p0, token] := by
    match hs : strings.Split authHeader ' ', hlen with
    | [a, b], _ => exact ⟨a, b, rfl⟩
  rw [hsplit] at hhead
  simp only [List.getD_cons_zero] at hhead
  subst hhead
  cases hv : V token with
  | error err =>
    right
    refine ⟨⟨"invalid or expired token",
      by simp only [AuthMiddleware.RequireAuth, hempty, if_false, hsplit, List.length_cons,
        List.length_nil, List.getD_cons_zero, List.getD_cons_succ, ne_eq, not_true_eq_false,
        or_self, hv, Nat.reduceAdd]⟩, ?_⟩
    intro token' hsplit'
    rw [hsplit] at hsplit'
    simp only [List.cons.injEq, and_true, true_and] at hsplit'
    subst hsplit'
    exact Or.inl ⟨err, hv⟩
  | ok claims =>
    cases hf : store.find? (fun e => e.key == "session:" ++ token) with
    | some e =>
      left
      exact ⟨token, claims, e, hsplit, hv, hf, RequireAuth_admit V store T authHeader token
        claims e hsplit hv hf⟩
    | none =>
      right
      have hres : AuthMiddleware.RequireAuth V store T authHeader =
          (.abort http.StatusUnauthorized "session expired due to inactivity", store) := by
        simp only [AuthMiddleware.RequireAuth, hempty, if_false, hsplit, List.length_cons,
          List.length_nil, List.getD_cons_zero, List.getD_cons_succ, ne_eq, not_true_eq_false,
          or_self, hv, redis.Client.Get, hf, Nat.reduceAdd]
      refine ⟨⟨_, hres⟩, ?_⟩
      intro token' hsplit'
      rw [hsplit] at hsplit'
      simp only [List.cons.injEq, and_true, true_and] at hsplit'
      subst hsplit'
      exact Or.inr ⟨⟨claims, hv⟩, hf, hres⟩

/-- The record lookup of the session store finds a record exactly when one has the key. -/
theorem find_session_some (store : redis.Client) (k : String)
    (h : ∃ e ∈ store, e.key = k) : ∃ e, store.find? (fun e => e.key == k) = some e := by
  cases hf : store.find? (fun e => e.key == k) with
  | some e => exact ⟨e, rfl⟩
  | none =>
    obtain ⟨e, he, hk⟩ := h
    have := List.find?_eq_none.1 hf e he
    simp [hk] at this

theorem find_session_mem (store : redis.Client) (k : String) (e : redis.Entry)
    (h : store.find? (fun e => e.key == k) = some e) : e ∈ store ∧ e.key = k := by
  refine ⟨List.mem_of_find?_eq_some h, ?_⟩
  have := List.find?_some h
  simpa using this

/-- After the rewrite, the store holds one record under the key, and the others as before. -/
theorem rewritten_store (store : redis.Client) (k v : String) (T : Int) :
    ((⟨k, v, T⟩ : redis.Entry) :: store.filter (fun e => e.key != k)).filter
        (fun e => e.key == k) = [⟨k, v, T⟩] ∧
    ((⟨k, v, T⟩ : redis.Entry) :: store.filter (fun e => e.key != k)).filter
        (fun e => e.key != k) = store.filter (fun e => e.key != k) := by
  constructor
  · rw [List.filter_cons_of_pos (by simp), List.filter_filter]
    congr 1
    apply List.filter_eq_nil_iff.2
    intro a _
    simp
  · rw [List.filter_cons_of_neg (by simp), List.filter_filter]
    congr 1
    funext a
    simp

end middleware

/-- C13: `RequireAuth` passes a request on to the next handler if and only if the
`Authorization` header is `Bearer`, one space and a token without spaces, the token passes
`ValidateToken`, and a session record exists under the key `session:` followed by the token;
when it does, the identity handed on is that of the token's claims, and for a valid token
without session record the request is rejected with 401. -/
theorem require_auth_admits_iff (V : String → Except GoError customjwt.Claims)
    (store : redis.Client) (T : Int) (authHeader : String) :
    ((∃ uid email,
        (middleware.AuthMiddleware.RequireAuth V store T authHeader).1 = .next uid email) ↔
      ∃ token, authHeader = "Bearer " ++ token ∧ ' ' ∉ token.data ∧
        (∃ claims, V token = .ok claims) ∧ ∃ e ∈ store, e.key = "session:" ++ token) ∧
    (∀ token claims, authHeader = "Bearer " ++ token → ' ' ∉ token.data →
      V token = .ok claims →
      ((∃ e ∈ store, e.key = "session:" ++ token) →
        (middleware.AuthMiddleware.RequireAuth V store T authHeader).1 =
          .next claims.UserID claims.Email) ∧
      ((∀ e ∈ store, e.key ≠ "session:" ++ token) →
        (middleware.AuthMiddleware.RequireAuth V store T authHeader).1 =
          .abort http.StatusUnauthorized "session expired due to inactivity")) := by
  refine ⟨⟨?_, ?_⟩, ?_⟩
  · rintro ⟨uid, email, h⟩
    rcases middleware.RequireAuth_cases V store T authHeader with
      ⟨token, claims, e, hsplit, hv, hf, _⟩ | ⟨⟨msg, hab⟩, _⟩
    · have hform := (strings.Split_eq_bearer authHeader token).1 hsplit
      have hm := middleware.find_session_mem store _ e hf
      exact ⟨token, hform.1, hform.2, ⟨claims, hv⟩, e, hm.1, hm.2⟩
    · rw [hab] at h
      simp at h
  · rintro ⟨token, h1, h2, ⟨claims, hv⟩, hex⟩
    have hsplit := (strings.Split_eq_bearer authHeader token).2 ⟨h1, h2⟩
    obtain ⟨e, hf⟩ := middleware.find_session_some store _ hex
    exact ⟨claims.UserID, claims.Email, by
      rw [middleware.RequireAuth_admit V store T authHeader token claims e hsplit hv hf]⟩
  · intro token claims h1 h2 hv
    have hsplit := (strings.Split_eq_bearer authHeader token).2 ⟨h1, h2⟩
    constructor
    · intro hex
      obtain ⟨e, hf⟩ := middleware.find_session_some store _ hex
      rw [middleware.RequireAuth_admit V store T authHeader token claims e hsplit hv hf]
    · intro hno
      rcases middleware.RequireAuth_cases V store T authHeader with
        ⟨token', claims', e, hsplit', _, hf, _⟩ | ⟨_, hrej⟩
      · rw [hsplit] at hsplit'
        simp only [List.cons.injEq, and_true, true_and] at hsplit'
        subst hsplit'
        have hm := middleware.find_session_mem store _ e hf
        exact absurd hm.2 (hno e hm.1)
      · rcases hrej token hsplit with ⟨err, herr⟩ | ⟨_, _, hres⟩
        · rw [hv] at herr
          simp at herr
        · rw [hres]

/-- Witness for C13: a valid token whose session record is gone is rejected with 401; with
the record present the request is passed on as user 7. -/
theorem require_auth_admits_iff_witness :
    (middleware.AuthMiddleware.RequireAuth validateGood sessions0 900 "Bearer good-token").1 =
      .next 7 "user@example.com" ∧
    (middleware.AuthMiddleware.RequireAuth validateGood [] 900 "Bearer good-token").1 =
      .abort http.StatusUnauthorized "session expired due to inactivity" :=
  ⟨((require_auth_admits_iff validateGood sessions0 900 "Bearer good-token").2 "good-token"
      ⟨7, "user@example.com"⟩ (by decide) (by decide) (by decide)).1 (by decide),
   ((require_auth_admits_iff validateGood [] 900 "Bearer good-token").2 "good-token"
      ⟨7, "user@example.com"⟩ (by decide) (by decide) (by decide)).2 (by decide)⟩

/-- C14: for every request admitted by `RequireAuth`, the session record under `session:`
followed by the token is rewritten with the value it held and a time-to-live equal to the
configured session timeout (all other records are as before); for every request that is
rejected, the session store is left unchanged. -/
theorem require_auth_refreshes_session (V : String → Except GoError customjwt.Claims)
    (store : redis.Client) (T : Int) (authHeader : String) :
    (∀ uid email,
      (middleware.AuthMiddleware.RequireAuth V store T authHeader).1 = .next uid email →
      ∃ token value, authHeader = "Bearer " ++ token ∧
        store.Get ("session:" ++ token) = .ok value ∧
        (middleware.AuthMiddleware.RequireAuth V store T authHeader).2.filter
            (fun e => e.key == "session:" ++ token) = [⟨"session:" ++ token, value, T⟩] ∧
        (middleware.AuthMiddleware.RequireAuth V store T authHeader).2.filter
            (fun e => e.key != "session:" ++ token) =
          store.filter (fun e => e.key != "session:" ++ token)) ∧
    (∀ status msg,
      (middleware.AuthMiddleware.RequireAuth V store T authHeader).1 = .abort status msg →
      (middleware.AuthMiddleware.RequireAuth V store T authHeader).2 = store) := by
  rcases middleware.RequireAuth_cases V store T authHeader with
    ⟨token, claims, e, hsplit, hv, hf, hres⟩ | ⟨⟨msg', hab⟩, _⟩
  · constructor
    · intro uid email _
      have hform := (strings.Split_eq_bearer authHeader token).1 hsplit
      refine ⟨token, e.value, hform.1, by simp [redis.Client.Get, hf], ?_⟩
      rw [hres]
      exact middleware.rewritten_store store _ _ T
    · intro status msg h
      rw [hres] at h
      simp at h
  · constructor
    · intro uid email h
      rw [hab] at h
      simp at h
    · intro status msg _
      rw [hab]

/-- Witness for C14: the admitted request rewrites the record of `good-token` with value
`7` and time-to-live 900 and leaves the other record alone; a request without session
leaves the store unchanged. -/
theorem require_auth_refreshes_session_witness :
    (middleware.AuthMiddleware.RequireAuth validateGood sessions0 900 "Bearer good-token").2 =
      [⟨"session:good-token", "7", 900⟩, ⟨"session:other", "8", 100⟩] ∧
    (middleware.AuthMiddleware.RequireAuth validateGood sessions0 900 "Bearer bad-token").2 =
      sessions0 :=
  ⟨by decide,
   (require_auth_refreshes_session validateGood sessions0 900 "Bearer bad-token").2
     http.StatusUnauthorized "invalid or expired token" (by decide)⟩

/-! ## Registration -/

/-- C15 (evaluation at the failing input): on a store whose `wallets` table already holds a
row with the `user_id` the new user will get, `Register` inserts the user, the wallet insert
is rejected by the unique index, `Register` returns the wrapped error, and the new user
record stays in the database although the unit of work was rolled back. -/
theorem register_wallet_failure_keeps_user :
    dbOrphanWallet.Constraints ∧ dbOrphanWallet.users = [] ∧
    (authService.Register hashFixture dbOrphanWallet "test@example.com" "password123"
      "password123").1 = .error (.Errorf "error creating wallet" .ErrDuplicatedKey) ∧
    (authService.Register hashFixture dbOrphanWallet "test@example.com" "password123"
      "password123").2.users = [⟨1, "test@example.com", "hash:password123"⟩] ∧
    (authService.Register hashFixture dbOrphanWallet "test@example.com" "password123"
      "password123").2.wallets = dbOrphanWallet.wallets := by
  decide

/-- C16: for every `Register` call, a password that differs from its confirmation gives
`ErrPasswordMismatch` (whatever its length and whether or not the email is registered);
otherwise a password below the minimum length (`len(password) < 8`) gives `ErrWeakPassword`
(whether or not the email is registered); otherwise an email that is already registered
gives `ErrEmailExists`; in each of the three cases the database is unchanged, so no user or
wallet record is added. -/
theorem register_validation_order (GenerateFromPassword : String → Except GoError String)
    (db : gorm.DB) (email password confirmPassword : String) :
    (password ≠ confirmPassword →
      authService.Register GenerateFromPassword db email password confirmPassword =
        (.error .ErrPasswordMismatch, db)) ∧
    (password = confirmPassword → password.utf8ByteSize < 8 →
      authService.Register GenerateFromPassword db email password confirmPassword =
        (.error .ErrWeakPassword, db)) ∧
    (password = confirmPassword → ¬ password.utf8ByteSize < 8 →
      (∃ u ∈ db.users, u.Email = email) →
      authService.Register GenerateFromPassword db email password confirmPassword =
        (.error .ErrEmailExists, db)) := by
  refine ⟨?_, ?_, ?_⟩
  · intro hne
    simp only [authService.Register, ne_eq, hne, not_false_eq_true, if_true]
  · intro heq hshort
    simp only [authService.Register, ne_eq, heq, not_true_eq_false, if_false]
    rw [heq] at hshort
    simp only [hshort, if_true]
  · rintro heq hlong ⟨u, hu, hue⟩
    obtain ⟨u', hfind⟩ : ∃ b, userRepository.FindByEmail db email = .ok b := by
      unfold userRepository.FindByEmail
      exact gorm.First_some _ hu (by simpa using hue)
    rw [heq] at hlong
    simp only [authService.Register, ne_eq, heq, not_true_eq_false, if_false, hlong, hfind]

/-- Witness for C16: a mismatching, too short password for an already registered email is
reported as a mismatch; a matching short one as weak; a matching long one as a duplicate
email; the database is unchanged each time. -/
theorem register_validation_order_witness :
    authService.Register hashFixture dbRegistered "test@example.com" "pass" "word" =
      (.error .ErrPasswordMismatch, dbRegistered) ∧
    authService.Register hashFixture dbRegistered "test@example.com" "pass" "pass" =
      (.error .ErrWeakPassword, dbRegistered) ∧
    authService.Register hashFixture dbRegistered "test@example.com" "password123"
      "password123" = (.error .ErrEmailExists, dbRegistered) :=
  ⟨(register_validation_order hashFixture dbRegistered "test@example.com" "pass" "word").1
      (by decide),
   (register_validation_order hashFixture dbRegistered "test@example.com" "pass" "pass").2.1
      rfl (by decide),
   (register_validation_order hashFixture dbRegistered "test@example.com" "password123"
      "password123").2.2 rfl (by decide) (by decide)⟩

/-- C17 (evaluation at the failing input): the password `pässwör` has 7 characters and 9
bytes; `Register` does not return `ErrWeakPassword` for it but creates the user. -/
theorem weak_password_check_counts_bytes :
    "pässwör".length = 7 ∧ "pässwör".utf8ByteSize = 9 ∧
    (authService.Register hashFixture dbEmpty "test@example.com" "pässwör" "pässwör").1 =
      .ok ⟨1, "test@example.com", "hash:pässwör"⟩ := by
  decide

/-! ## Wallet view and overlapping transfers -/

namespace service

/-- `GetWallet` for a user with a wallet: the sorted ledger rows of the wallet, cut to 50. -/
theorem GetWallet_eq (db : gorm.DB) (userID : Nat) (w : models.Wallet)
    (hw : walletRepository.FindByUserID db userID = .ok w) :
    walletService.GetWallet db userID =
      .ok (w, ((db.transactions.filter (fun t => t.WalletID == w.ID)).insertionSort
                transactionRepository.newestFirst).take 50) := by
  simp [walletService.GetWallet, hw, transactionRepository.FindByWalletID]

/-- The unit of work of `Transfer` is its reads followed by its writes. -/
theorem func1_eq_reads_writes (db : gorm.DB) (sender recipient : models.User) (amount : ℚ)
    (notes key : String) (tDebit tCredit : Nat) (tx : gorm.DB) :
    walletService.Transfer.func1 db sender recipient amount notes key tDebit tCredit tx =
      match walletService.Transfer.func1.reads db sender recipient with
      | .error err => .error err
      | .ok (sw, rw) =>
        walletService.Transfer.func1.writes sw rw sender recipient amount notes key
          tDebit tCredit tx := by
  unfold walletService.Transfer.func1 walletService.Transfer.func1.reads
  cases walletRepository.FindByUserID db sender.ID with
  | error e => rfl
  | ok sw =>
    cases walletRepository.FindByUserID db recipient.ID with
    | error e => rfl
    | ok rw => rfl

end service

/-- C18: for every user that owns a wallet, `GetWallet` returns that wallet together with
ledger rows `txs` such that, for some remainder `rest`, `txs ++ rest` is a rearrangement of
exactly the ledger rows of that wallet; `txs` holds only rows of that wallet, is ordered by
creation time newest first, has `min 50 n` rows where `n` is the number of rows of the
wallet, and no row left out is newer than a row returned; with no rows the list is empty. -/
theorem get_wallet_recent_entries (db : gorm.DB) (userID : Nat) (w : models.Wallet)
    (hw : walletRepository.FindByUserID db userID = .ok w) :
    ∃ txs rest, walletService.GetWallet db userID = .ok (w, txs) ∧
      List.Perm (txs ++ rest) (db.transactions.filter (fun t => t.WalletID == w.ID)) ∧
      (∀ t ∈ txs, t ∈ db.transactions ∧ t.WalletID = w.ID) ∧
      txs.Pairwise (fun a b => b.CreatedAt ≤ a.CreatedAt) ∧
      txs.length = min 50 (db.transactions.filter (fun t => t.WalletID == w.ID)).length ∧
      (∀ t ∈ txs, ∀ t' ∈ rest, t'.CreatedAt ≤ t.CreatedAt) ∧
      (db.transactions.filter (fun t => t.WalletID == w.ID) = [] → txs = []) := by
  have hperm := List.perm_insertionSort transactionRepository.newestFirst
    (db.transactions.filter (fun t => t.WalletID == w.ID))
  have hsorted := List.sorted_insertionSort transactionRepository.newestFirst
    (db.transactions.filter (fun t => t.WalletID == w.ID))
  generalize hS : (db.transactions.filter (fun t => t.WalletID == w.ID)).insertionSort
    transactionRepository.newestFirst = sorted at hperm hsorted
  have hsplit : sorted.take 50 ++ sorted.drop 50 = sorted := List.take_append_drop 50 sorted
  refine ⟨sorted.take 50, sorted.drop 50, ?_, ?_, ?_, ?_, ?_, ?_, ?_⟩
  · rw [service.GetWallet_eq db userID w hw, hS]
  · rw [hsplit]; exact hperm
  · intro t ht
    have hmem : t ∈ db.transactions.filter (fun t => t.WalletID == w.ID) :=
      hperm.subset (List.mem_of_mem_take ht)
    simpa [List.mem_filter] using hmem
  · exact List.Pairwise.sublist (List.take_sublist 50 sorted) hsorted
  · rw [List.length_take, hperm.length_eq]
  · have hp : (sorted.take 50 ++ sorted.drop 50).Pairwise
        transactionRepository.newestFirst := by rw [hsplit]; exact hsorted
    intro t ht t' ht'
    exact (List.pairwise_append.1 hp).2.2 t ht t' ht'
  · intro hnil
    rw [hnil] at hperm
    rw [List.Perm.eq_nil hperm]
    rfl

/-- Witness for C18: after the transfer with key `a`, the wallet view of user 1 is its
wallet with balance 800 and its single debit row. -/
theorem get_wallet_recent_entries_witness :
    ∃ txs rest, walletService.GetWallet dbAfterA 1 = .ok (⟨1, 1, 800⟩, txs) ∧
      List.Perm (txs ++ rest) (dbAfterA.transactions.filter (fun t => t.WalletID == 1)) ∧
      (∀ t ∈ txs, t ∈ dbAfterA.transactions ∧ t.WalletID = 1) ∧
      txs.Pairwise (fun a b => b.CreatedAt ≤ a.CreatedAt) ∧
      txs.length = min 50 (dbAfterA.transactions.filter (fun t => t.WalletID == 1)).length ∧
      (∀ t ∈ txs, ∀ t' ∈ rest, t'.CreatedAt ≤ t.CreatedAt) ∧
      (dbAfterA.transactions.filter (fun t => t.WalletID == 1) = [] → txs = []) :=
  get_wallet_recent_entries dbAfterA 1 ⟨1, 1, 800⟩ (by decide!)

/-- C19 (evaluation at the failing schedule): two transfers of 200 and 300 from user 1 to
user 2 whose units of work overlap both report success and write their four ledger rows,
but the final balances are 700 and 1300: the update of the first transfer is lost.  Either
sequential execution of the two calls ends with 500 and 1500. -/
theorem overlapped_transfers_lose_update :
    (walletService.Transfer.overlapped db0
        ⟨1, "sender@example.com", "hashedpassword"⟩
        ⟨2, "recipient@example.com", "hashedpassword"⟩ 200 "first" "k1" 1 2
        ⟨1, "sender@example.com", "hashedpassword"⟩
        ⟨2, "recipient@example.com", "hashedpassword"⟩ 300 "second" "k2" 3 4).1 = none ∧
    (walletService.Transfer.overlapped db0
        ⟨1, "sender@example.com", "hashedpassword"⟩
        ⟨2, "recipient@example.com", "hashedpassword"⟩ 200 "first" "k1" 1 2
        ⟨1, "sender@example.com", "hashedpassword"⟩
        ⟨2, "recipient@example.com", "hashedpassword"⟩ 300 "second" "k2" 3 4).2.1 = none ∧
    (walletService.Transfer.overlapped db0
        ⟨1, "sender@example.com", "hashedpassword"⟩
        ⟨2, "recipient@example.com", "hashedpassword"⟩ 200 "first" "k1" 1 2
        ⟨1, "sender@example.com", "hashedpassword"⟩
        ⟨2, "recipient@example.com", "hashedpassword"⟩ 300 "second" "k2" 3 4).2.2.wallets =
      [⟨1, 1, 700⟩, ⟨2, 2, 1300⟩] ∧
    (walletService.Transfer.overlapped db0
        ⟨1, "sender@example.com", "hashedpassword"⟩
        ⟨2, "recipient@example.com", "hashedpassword"⟩ 200 "first" "k1" 1 2
        ⟨1, "sender@example.com", "hashedpassword"⟩
        ⟨2, "recipient@example.com", "hashedpassword"⟩ 300 "second" "k2" 3 4).2.2.transactions.map
        models.Transaction.IdempotencyKey = ["k1", "k1-credit", "k2", "k2-credit"] ∧
    (walletService.Transfer
        (walletService.Transfer db0 1 "recipient@example.com" 200 "first" "k1" 1 2).2
        1 "recipient@example.com" 300 "second" "k2" 3 4).2.wallets =
      [⟨1, 1, 500⟩, ⟨2, 2, 1500⟩] ∧
    (walletService.Transfer
        (walletService.Transfer db0 1 "recipient@example.com" 300 "second" "k2" 3 4).2
        1 "recipient@example.com" 200 "first" "k1" 1 2).2.wallets =
      [⟨1, 1, 500⟩, ⟨2, 2, 1500⟩] := by
  decide!

/-- C20: for every non-empty idempotency key that equals the token of an existing ledger
row, `Transfer` returns success and leaves the database unchanged for every choice of the
other arguments; no validation is performed. -/
theorem transfer_replay_skips_validation (db : gorm.DB) (senderID : Nat)
    (recipientEmail : String) (amount : ℚ) (notes key : String) (tDebit tCredit : Nat)
    (hk : key ≠ "") (hex : ∃ t ∈ db.transactions, t.IdempotencyKey = key) :
    walletService.Transfer db senderID recipientEmail amount notes key tDebit tCredit =
      (none, db) :=
  service.Transfer_replay db senderID recipientEmail amount notes key tDebit tCredit hk hex

/-- Witness for C20: after user 1's transfer with key `a`, a call by the unknown user 9 to
an unknown recipient with a negative amount and the key `a-credit` reports success and
changes nothing. -/
theorem transfer_replay_skips_validation_witness :
    walletService.Transfer dbAfterA 9 "nobody@example.com" (-5) "x" "a-credit" 7 8 =
      (none, dbAfterA) :=
  transfer_replay_skips_validation dbAfterA 9 "nobody@example.com" (-5) "x" "a-credit" 7 8
    (by decide) (by decide!)

/-! ## Transfers without an idempotency key -/

namespace service

/-- A successful `Transfer` with the empty key is a commit: the ledger afterwards holds the
tokens `""` and `"-credit"`. -/
theorem Transfer_empty_key_tokens (db : gorm.DB) (senderID : Nat) (recipientEmail : String)
    (amount : ℚ) (notes : String) (tDebit tCredit : Nat)
    (hok : (walletService.Transfer db senderID recipientEmail amount notes "" tDebit tCredit).1
            = none) :
    (∃ t ∈ (walletService.Transfer db senderID recipientEmail amount notes "" tDebit
              tCredit).2.transactions, t.IdempotencyKey = "") ∧
    (∃ t ∈ (walletService.Transfer db senderID recipientEmail amount notes "" tDebit
              tCredit).2.transactions, t.IdempotencyKey = "-credit") := by
  rcases Transfer_cases db senderID recipientEmail amount notes "" tDebit tCredit with
    ⟨⟨hk, _⟩, _⟩ | ⟨e, h⟩ | ⟨sender, recipient, sw, rw, _, _, _, _, _, _, _, _, h⟩
  · exact absurd rfl hk
  · rw [h] at hok; simp at hok
  · rw [h]
    simp only [walletService.Transfer.committed]
    exact ⟨⟨_, List.mem_append_left _ (List.mem_append_right _ (List.mem_singleton_self _)), rfl⟩,
      ⟨_, List.mem_append_right _ (List.mem_singleton_self _), rfl⟩⟩

/-- A validated transfer with the empty key on a ledger that already holds the token `""`
fails at the debit insert and is rolled back. -/
theorem Transfer_empty_key_taken (db : gorm.DB) (sender recipient : models.User)
    (sw rw : models.Wallet) (senderID : Nat) (recipientEmail : String) (amount : ℚ)
    (notes : String) (tDebit tCredit : Nat)
    (hs : userRepository.FindByID db senderID = .ok sender)
    (hr : userRepository.FindByEmail db recipientEmail = .ok recipient)
    (hne : sender.ID ≠ recipient.ID)
    (hsw : walletRepository.FindByUserID db sender.ID = .ok sw)
    (hrw : walletRepository.FindByUserID db recipient.ID = .ok rw)
    (hpos : 0 < amount) (hbal : amount ≤ sw.Balance)
    (htaken : ∃ t ∈ db.transactions, t.IdempotencyKey = "") :
    walletService.Transfer db senderID recipientEmail amount notes "" tDebit tCredit =
      (some (.Errorf "error creating debit transaction" .ErrDuplicatedKey), db) := by
  have hnr : ¬ (("" : String) ≠ "" ∧ ∃ t ∈ db.transactions, t.IdempotencyKey = "") :=
    fun h => h.1 rfl
  rw [Transfer_eq, if_neg hnr, if_neg (not_le.2 hpos)]
  simp only [hs, hr, hne, if_false, gorm.DB.Transaction]
  rw [func1_eq db sender recipient sw rw amount notes "" tDebit tCredit hsw hrw,
    if_neg (not_lt.2 hbal), if_pos htaken]

end service

/-- C21: `Transfer` with an empty idempotency key skips the duplicate lookup and, when it
succeeds, writes the tokens `""` and `"-credit"` to the ledger; consequently, in every
sequence of `Transfer` calls, once an empty-key call has succeeded, every later empty-key
call that passes all validation and the balance check fails with the wrapped storage error
of the debit insert, which is none of the four domain errors, and leaves the database
(balances and ledger) unchanged. -/
theorem empty_key_transfer_fails_after_first (db : gorm.DB) (calls : List TransferCall)
    (i j : Nat) (ci cj : TransferCall) (sender recipient : models.User)
    (sw rw : models.Wallet) (hij : i < j)
    (hi : calls[i]? = some ci) (hj : calls[j]? = some cj)
    (hki : ci.idempotencyKey = "") (hkj : cj.idempotencyKey = "")
    (hfirst : (walletService.Transfer (stateAfter db calls i) ci.senderID ci.recipientEmail
                ci.amount ci.notes ci.idempotencyKey ci.tDebit ci.tCredit).1 = none)
    (hs : userRepository.FindByID (stateAfter db calls j) cj.senderID = .ok sender)
    (hr : userRepository.FindByEmail (stateAfter db calls j) cj.recipientEmail = .ok recipient)
    (hne : sender.ID ≠ recipient.ID)
    (hsw : walletRepository.FindByUserID (stateAfter db calls j) sender.ID = .ok sw)
    (hrw : walletRepository.FindByUserID (stateAfter db calls j) recipient.ID = .ok rw)
    (hpos : 0 < cj.amount) (hbal : cj.amount ≤ sw.Balance) :
    ((∃ t ∈ (stateAfter db calls (i + 1)).transactions, t.IdempotencyKey = "") ∧
      (∃ t ∈ (stateAfter db calls (i + 1)).transactions, t.IdempotencyKey = "-credit")) ∧
    walletService.Transfer (stateAfter db calls j) cj.senderID cj.recipientEmail cj.amount
        cj.notes cj.idempotencyKey cj.tDebit cj.tCredit =
      (some (.Errorf "error creating debit transaction" .ErrDuplicatedKey),
        stateAfter db calls j) ∧
    stateAfter db calls (j + 1) = stateAfter db calls j ∧
    errors.Is (.Errorf "error creating debit transaction" .ErrDuplicatedKey)
      .ErrInvalidAmount = false ∧
    errors.Is (.Errorf "error creating debit transaction" .ErrDuplicatedKey)
      .ErrRecipientNotFound = false ∧
    errors.Is (.Errorf "error creating debit transaction" .ErrDuplicatedKey)
      .ErrSelfTransfer = false ∧
    errors.Is (.Errorf "error creating debit transaction" .ErrDuplicatedKey)
      .ErrInsufficientBalance = false := by
  rw [hki] at hfirst
  have htok : (∃ t ∈ (stateAfter db calls (i + 1)).transactions, t.IdempotencyKey = "") ∧
      (∃ t ∈ (stateAfter db calls (i + 1)).transactions, t.IdempotencyKey = "-credit") := by
    rw [stateAfter_succ db calls i ci hi]
    unfold TransferCall.run
    rw [hki]
    exact service.Transfer_empty_key_tokens _ _ _ _ _ _ _ hfirst
  obtain ⟨t, ht, htk⟩ := htok.1
  have htj := stateAfter_ledger_mono db calls t (i + 1) ht j hij
  have hres := service.Transfer_empty_key_taken (stateAfter db calls j) sender recipient sw rw
    cj.senderID cj.recipientEmail cj.amount cj.notes cj.tDebit cj.tCredit hs hr hne hsw hrw
    hpos hbal ⟨t, htj, htk⟩
  rw [← hkj] at hres
  refine ⟨htok, hres, ?_, by decide, by decide, by decide, by decide⟩
  rw [stateAfter_succ db calls j cj hj]
  unfold TransferCall.run
  rw [hres]

/-- Witness for C21: in the sequence `retryCalls` the first empty-key transfer of 50
succeeds; the second, equally valid (balance 750), fails with the wrapped unique-index
error and leaves the database as it found it. -/
theorem empty_key_transfer_fails_after_first_witness :
    walletService.Transfer (stateAfter db0 retryCalls 2) 1 "recipient@example.com" 50 "second"
        "" 9 10 =
      (some (.Errorf "error creating debit transaction" .ErrDuplicatedKey),
        stateAfter db0 retryCalls 2) :=
  (empty_key_transfer_fails_after_first db0 retryCalls 1 2
    ⟨1, "recipient@example.com", 50, "second", "", 7, 8⟩
    ⟨1, "recipient@example.com", 50, "second", "", 9, 10⟩
    ⟨1, "sender@example.com", "hashedpassword"⟩ ⟨2, "recipient@example.com", "hashedpassword"⟩
    ⟨1, 1, 750⟩ ⟨2, 2, 1250⟩ (by decide) (by rfl) (by rfl) (by rfl) (by rfl)
    (by decide!) (by decide!) (by decide!) (by decide) (by decide!) (by decide!)
    (by decide) (by decide)).2.1

/-! ## Non-negativity and NaN -/

/-- C3 (evaluation at the failing input): on the test fixture every balance is `≥ 0`; a
`Transfer` whose `float64` amount is NaN passes the amount check (`NaN <= 0` is false) and
the balance check (`1000 < NaN` is false), returns success, and leaves both wallets with the
balance NaN, which is not `≥ 0`. -/
theorem transfer_nan_amount_breaks_nonneg :
    fp.db0.wallets.all (fun w => fp.float64.le (.num 0) w.Balance) = true ∧
    fp.float64.le .NaN (.num 0) = false ∧
    fp.float64.lt (.num 1000) .NaN = false ∧
    (fp.service.walletService.Transfer fp.db0 1 "recipient@example.com" .NaN "n" "k" 5 6).1
      = none ∧
    (fp.service.walletService.Transfer fp.db0 1 "recipient@example.com" .NaN "n" "k"
      5 6).2.wallets = [⟨1, 1, .NaN⟩, ⟨2, 2, .NaN⟩] ∧
    (fp.service.walletService.Transfer fp.db0 1 "recipient@example.com" .NaN "n" "k"
      5 6).2.wallets.all (fun w => fp.float64.le (.num 0) w.Balance) = false := by
  decide

/-! ## Agreement of the two embeddings on numbers -/

/-- The least row of a mapped table is the image of the least row, when the map keeps the
primary key. -/
theorem leastBy_map_of {α β : Type} (pk : α → Nat) (pk' : β → Nat) (f : α → β)
    (hpk : ∀ r, pk' (f r) = pk r) :
    ∀ l : List α, gorm.leastBy pk' (l.map f) = (gorm.leastBy pk l).map f := by
  intro l
  induction l with
  | nil => simp [gorm.leastBy]
  | cons a as ih =>
    simp only [List.map_cons, gorm.leastBy, ih]
    cases gorm.leastBy pk as with
    | none => simp
    | some b => by_cases hle : pk a ≤ pk b <;> simp [hle, hpk]

/-- The query `First` commutes with a map of rows that keeps the primary key and the condition. -/
theorem First_map_of {α β : Type} (pk : α → Nat) (pk' : β → Nat) (cond : α → Bool)
    (cond' : β → Bool) (f : α → β) (hpk : ∀ r, pk' (f r) = pk r)
    (hcond : ∀ r, cond' (f r) = cond r) (rows : List α) :
    gorm.First pk' (rows.map f) cond' = (gorm.First pk rows cond).map f := by
  unfold gorm.First
  have hfil : (rows.map f).filter cond' = (rows.filter cond).map f := by
    rw [List.filter_map]
    congr 1
    apply List.filter_congr
    intro x _
    simp [hcond]
  rw [hfil, leastBy_map_of pk pk' f hpk]
  cases gorm.leastBy pk (rows.filter cond) <;> rfl

/-- The next auto-increment value of a mapped table, when the map keeps the primary key. -/
theorem nextID_map_of {α β : Type} (pk : α → Nat) (pk' : β → Nat) (f : α → β)
    (hpk : ∀ r, pk' (f r) = pk r) (l : List α) :
    gorm.nextID pk' (l.map f) = gorm.nextID pk l := by
  unfold gorm.nextID
  rw [List.map_map]
  congr 3
  funext r
  exact hpk r

/-- Both embeddings of `FindByUserID` find the same wallet. -/
theorem float64_FindByUserID (db : gorm.DB) (userID : Nat) :
    fp.repository.walletRepository.FindByUserID (float64DB db) userID =
      (repository.walletRepository.FindByUserID db userID).map float64Wallet := by
  unfold fp.repository.walletRepository.FindByUserID repository.walletRepository.FindByUserID
  exact First_map_of _ _ _ _ float64Wallet (fun _ => rfl) (fun _ => rfl) db.wallets

/-- Both embeddings of `FindByIdempotencyKey` find the same ledger row. -/
theorem float64_FindByIdempotencyKey (db : gorm.DB) (key : String) :
    fp.repository.transactionRepository.FindByIdempotencyKey (float64DB db) key =
      (repository.transactionRepository.FindByIdempotencyKey db key).map float64Transaction := by
  unfold fp.repository.transactionRepository.FindByIdempotencyKey
    repository.transactionRepository.FindByIdempotencyKey
  exact First_map_of _ _ _ _ float64Transaction (fun _ => rfl) (fun _ => rfl) db.transactions

/-- Both embeddings of `UpdateBalance` write the same balance when it is a number. -/
theorem float64_UpdateBalance (tx : gorm.DB) (walletID : Nat) (newBalance : ℚ) :
    fp.repository.walletRepository.UpdateBalance (float64DB tx) walletID (.num newBalance) =
      (repository.walletRepository.UpdateBalance tx walletID newBalance).map float64DB := by
  unfold fp.repository.walletRepository.UpdateBalance repository.walletRepository.UpdateBalance
  simp only [Except.map, float64DB, List.map_map]
  congr 2
  apply List.map_congr_left
  intro w _
  simp only [Function.comp, fp.repository.walletRepository.UpdateBalance.set,
    repository.walletRepository.UpdateBalance.set, float64Wallet]
  split <;> rfl

/-- Both embeddings of `transactionRepository.Create` accept or reject the same rows. -/
theorem float64_Create (tx : gorm.DB) (row : models.Transaction) (now : Nat) :
    fp.repository.transactionRepository.Create (float64DB tx) (float64Transaction row) now =
      (repository.transactionRepository.Create tx row now).map float64DB := by
  unfold fp.repository.transactionRepository.Create repository.transactionRepository.Create
  have hid : gorm.nextID fp.models.Transaction.ID (float64DB tx).transactions =
      gorm.nextID models.Transaction.ID tx.transactions :=
    nextID_map_of _ _ float64Transaction (fun _ => rfl) tx.transactions
  have hany : ∀ (i : Nat) (k : String),
      ((tx.transactions.map float64Transaction).any
        (fun t => t.ID == i || t.IdempotencyKey == k)) =
      (tx.transactions.any (fun t => t.ID == i || t.IdempotencyKey == k)) := by
    intro i k
    induction tx.transactions with
    | nil => rfl
    | cons a as ih => simp only [List.map_cons, List.any_cons, ih, float64Transaction]
  simp only [hid]
  simp only [float64DB, float64Transaction, hany]
  split_ifs <;> simp [Except.map, float64DB, float64Transaction]


/-- Both embeddings of the closure of `Transfer` agree when the amount is a number. -/
theorem float64_func1 (db : gorm.DB) (sender recipient : models.User) (amount : ℚ)
    (notes key : String) (tDebit tCredit : Nat) (tx : gorm.DB) :
    fp.service.walletService.Transfer.func1 (float64DB db) sender recipient (.num amount) notes
        key tDebit tCredit (float64DB tx) =
      (service.walletService.Transfer.func1 db sender recipient amount notes key tDebit tCredit
        tx).map float64DB := by
  unfold fp.service.walletService.Transfer.func1 service.walletService.Transfer.func1
  rw [float64_FindByUserID, float64_FindByUserID]
  cases hs : repository.walletRepository.FindByUserID db sender.ID with
  | error e => rfl
  | ok sw =>
    cases hr : repository.walletRepository.FindByUserID db recipient.ID with
    | error e => rfl
    | ok rw =>
      simp only [Except.map, float64Wallet, fp.float64.lt, fp.float64.sub, fp.float64.add,
        decide_eq_true_eq]
      by_cases hlt : sw.Balance < amount
      · simp only [hlt, if_true]
      · simp only [hlt, if_false]
        obtain ⟨tx1, h1⟩ : ∃ tx1, repository.walletRepository.UpdateBalance tx sw.ID
            (sw.Balance - amount) = .ok tx1 := ⟨_, rfl⟩
        have h1f := float64_UpdateBalance tx sw.ID (sw.Balance - amount)
        rw [h1] at h1f
        rw [h1f, h1]
        simp only [Except.map]
        obtain ⟨tx2, h2⟩ : ∃ tx2, repository.walletRepository.UpdateBalance tx1 rw.ID
            (rw.Balance + amount) = .ok tx2 := ⟨_, rfl⟩
        have h2f := float64_UpdateBalance tx1 rw.ID (rw.Balance + amount)
        rw [h2] at h2f
        rw [h2f, h2]
        simp only [Except.map]
        have h3f : fp.repository.transactionRepository.Create (float64DB tx2)
            { ID := 0, WalletID := sw.ID, Amount := fp.float64.num amount,
              Type_ := .TransactionTypeDebit, RelatedUserID := some recipient.ID, Notes := notes,
              IdempotencyKey := key, CreatedAt := 0 } tDebit = _ :=
          float64_Create tx2
            { ID := 0, WalletID := sw.ID, Amount := amount,
              Type_ := .TransactionTypeDebit, RelatedUserID := some recipient.ID, Notes := notes,
              IdempotencyKey := key, CreatedAt := 0 } tDebit
        rw [h3f]
        cases h3 : repository.transactionRepository.Create tx2
            { ID := 0, WalletID := sw.ID, Amount := amount,
              Type_ := .TransactionTypeDebit, RelatedUserID := some recipient.ID, Notes := notes,
              IdempotencyKey := key, CreatedAt := 0 } tDebit with
        | error e => rfl
        | ok tx3 =>
          simp only [Except.map]
          have h4f : fp.repository.transactionRepository.Create (float64DB tx3)
              { ID := 0, WalletID := rw.ID, Amount := fp.float64.num amount,
                Type_ := .TransactionTypeCredit, RelatedUserID := some sender.ID, Notes := notes,
                IdempotencyKey := key ++ "-credit", CreatedAt := 0 } tCredit = _ :=
            float64_Create tx3
              { ID := 0, WalletID := rw.ID, Amount := amount,
                Type_ := .TransactionTypeCredit, RelatedUserID := some sender.ID, Notes := notes,
                IdempotencyKey := key ++ "-credit", CreatedAt := 0 } tCredit
          rw [h4f]
          cases h4 : repository.transactionRepository.Create tx3
              { ID := 0, WalletID := rw.ID, Amount := amount,
                Type_ := .TransactionTypeCredit, RelatedUserID := some sender.ID, Notes := notes,
                IdempotencyKey := key ++ "-credit", CreatedAt := 0 } tCredit with
          | error e => rfl
          | ok tx4 => rfl

/-- On a database and an amount that are exact numbers the `float64` embedding of `Transfer`
returns the same error and the same database as the embedding over exact amounts. -/
theorem float64_Transfer (db : gorm.DB) (senderID : Nat) (recipientEmail : String) (amount : ℚ)
    (notes key : String) (tDebit tCredit : Nat) :
    fp.service.walletService.Transfer (float64DB db) senderID recipientEmail (.num amount) notes
        key tDebit tCredit =
      ((service.walletService.Transfer db senderID recipientEmail amount notes key tDebit
          tCredit).1,
        float64DB (service.walletService.Transfer db senderID recipientEmail amount notes key
          tDebit tCredit).2) := by
  unfold fp.service.walletService.Transfer service.walletService.Transfer
  rw [float64_FindByIdempotencyKey]
  have hid : fp.repository.userRepository.FindByID (float64DB db) senderID =
      repository.userRepository.FindByID db senderID := rfl
  have hem : fp.repository.userRepository.FindByEmail (float64DB db) recipientEmail =
      repository.userRepository.FindByEmail db recipientEmail := rfl
  rw [hid, hem]
  by_cases hk : key = ""
  · simp only [hk, ne_eq, not_true_eq_false, if_false]
    simp only [fp.float64.le, decide_eq_true_eq]
    by_cases ha : amount ≤ 0
    · simp only [ha, if_true]
    · simp only [ha, if_false]
      cases hS : repository.userRepository.FindByID db senderID with
      | error e => rfl
      | ok sender =>
        cases hR : repository.userRepository.FindByEmail db recipientEmail with
        | error e => simp only; split_ifs <;> rfl
        | ok recipient =>
          simp only
          by_cases hself : sender.ID = recipient.ID
          · simp only [hself, if_true]
          · simp only [hself, if_false]
            unfold fp.gorm.DB.Transaction gorm.DB.Transaction
            rw [float64_func1]
            generalize service.walletService.Transfer.func1 db sender recipient amount notes _
              tDebit tCredit db = r
            cases r <;> rfl
  · simp only [hk, ne_eq, not_false_eq_true, if_true]
    cases hf : repository.transactionRepository.FindByIdempotencyKey db key with
    | ok t => rfl
    | error e =>
      simp only [Except.map]
      by_cases he : errors.Is e .ErrRecordNotFound = true
      · simp only [he, Bool.not_true, Bool.false_eq_true, if_false]
        simp only [fp.float64.le, decide_eq_true_eq]
        by_cases ha : amount ≤ 0
        · simp only [ha, if_true]
        · simp only [ha, if_false]
          cases hS : repository.userRepository.FindByID db senderID with
          | error e => rfl
          | ok sender =>
            cases hR : repository.userRepository.FindByEmail db recipientEmail with
            | error e => simp only; split_ifs <;> rfl
            | ok recipient =>
              simp only
              by_cases hself : sender.ID = recipient.ID
              · simp only [hself, if_true]
              · simp only [hself, if_false]
                unfold fp.gorm.DB.Transaction gorm.DB.Transaction
                rw [float64_func1]
                generalize service.walletService.Transfer.func1 db sender recipient amount notes _
                  tDebit tCredit db = r
                cases r <;> rfl
      · simp only [he, Bool.not_false, if_true]

/-- Non-negativity in the `float64` embedding for amounts that are numbers: on a database of
exact numbers whose wallet balances are all `≥ 0`, a `Transfer` whose amount is a number
leaves every wallet balance a number `≥ 0`. -/
theorem float64_Transfer_number_nonneg (db : gorm.DB) (senderID : Nat)
    (recipientEmail : String) (amount : ℚ) (notes key : String) (tDebit tCredit : Nat)
    (h0 : ∀ w ∈ db.wallets, 0 ≤ w.Balance) :
    ∀ w ∈ (fp.service.walletService.Transfer (float64DB db) senderID recipientEmail
        (.num amount) notes key tDebit tCredit).2.wallets,
      fp.float64.le (.num 0) w.Balance = true := by
  rw [float64_Transfer]
  intro w hw
  simp only [float64DB, List.mem_map] at hw
  obtain ⟨w0, hw0, rfl⟩ := hw
  simp only [float64Wallet, fp.float64.le, decide_eq_true_eq]
  exact transfer_preserves_nonneg db senderID recipientEmail amount notes key tDebit tCredit h0
    w0 hw0
